import Mathlib

/-!
Verification of the BGP UPDATE path-attribute subsystem of quagga
(`bgpd/bgp_attr.c`): the malformed-attribute policy, mandatory-attribute
check, AS4 reconciliation, attribute interning, the unknown-attribute
handler and parts of the attribute encoder, shallowly embedded in Lean.

Machine integers are modelled as `Nat`; the C code in scope performs no
arithmetic that overflows its types (attribute type codes fit in a byte,
bitmaps in 32 bits).  Byte buffers are `List Nat`, and the stream read
cursor (`getp`) is an index into such a buffer.  Pointers to interned,
canonical objects (AS-paths, communities, …) are modelled as opaque
numeric identities, matching the spec's statement that reference fields
compare by pointer because they are already canonicalized.
-/

namespace BgpAttr

/-! ### Attribute type codes, flag bits and reserved AS numbers

`bgp_attr.h` / `bgp.h` are not among the provided sources; the numeric
values below are modelled from the spec (§6: "Origin=1, AS-Path=2,
Next-Hop=3, MED=4, Local-Pref=5, Atomic-Aggregate=6, Aggregator=7,
Communities=8, Originator-ID=9, Cluster-List=10, MP-Reach-NLRI=14,
MP-Unreach-NLRI=15, Extended-Communities=16, AS4-Path=17,
AS4-Aggregator=18, Tunnel-Encap=23, Large-Communities=32"; flags
"bit7 Optional, bit6 Transitive, bit5 Partial, bit4 Extended-Length";
glossary "AS_TRANS: reserved 2-byte AS number (23456)").  -/

def BGP_ATTR_ORIGIN : Nat := 1

def BGP_ATTR_AS_PATH : Nat := 2

def BGP_ATTR_NEXT_HOP : Nat := 3

def BGP_ATTR_MULTI_EXIT_DISC : Nat := 4

def BGP_ATTR_LOCAL_PREF : Nat := 5

def BGP_ATTR_ATOMIC_AGGREGATE : Nat := 6

def BGP_ATTR_AGGREGATOR : Nat := 7

def BGP_ATTR_COMMUNITIES : Nat := 8

def BGP_ATTR_ORIGINATOR_ID : Nat := 9

def BGP_ATTR_CLUSTER_LIST : Nat := 10

def BGP_ATTR_MP_REACH_NLRI : Nat := 14

def BGP_ATTR_MP_UNREACH_NLRI : Nat := 15

def BGP_ATTR_EXT_COMMUNITIES : Nat := 16

def BGP_ATTR_AS4_PATH : Nat := 17

def BGP_ATTR_AS4_AGGREGATOR : Nat := 18

def BGP_ATTR_ENCAP : Nat := 23

def BGP_ATTR_LARGE_COMMUNITIES : Nat := 32

def BGP_ATTR_FLAG_OPTIONAL : Nat := 0x80

def BGP_ATTR_FLAG_TRANS : Nat := 0x40

def BGP_ATTR_FLAG_PARTIAL : Nat := 0x20

def BGP_ATTR_FLAG_EXTLEN : Nat := 0x10

def BGP_AS_TRANS : Nat := 23456

/-- `ATTR_FLAG_BIT(X) = 1 << ((X) - 1)`: presence-bitmap bit of attribute
type code `X` (the presence bitmap is `attr->flag`).  -/
def ATTR_FLAG_BIT (t : Nat) : Nat := 2 ^ (t - 1)

/-- `CHECK_FLAG(V,F) = ((V) & (F))`, used as a boolean.  -/
def CHECK_FLAG (v f : Nat) : Bool := v &&& f != 0

/-- `SET_FLAG(V,F): V |= F`.  -/
def SET_FLAG (v f : Nat) : Nat := v ||| f

/-- `UNSET_FLAG(V,F): V &= ~F`.  -/
def UNSET_FLAG (v f : Nat) : Nat := v.ldiff f

/-! ### Peers, parse results, NOTIFY messages, streams -/

/-- Peer session classification (`bgp_peer_sort`).  -/
inductive bgp_peer_sort
  | ibgp
  | ebgp
  | confed
deriving DecidableEq, Repr

/-- The slice of `struct peer` that the attribute subsystem reads.
Per-address-family flags (`peer->af_flags[afi][safi]`) are modelled for
the single AFI/SAFI an encoder call works on.  -/
structure peer where
  sort : bgp_peer_sort
  cap_as4_rcv : Bool := false
  cap_restart_rcv : Bool := false
  af_as_path_unchanged : Bool := false
  af_rserver_client : Bool := false
  af_send_community : Bool := false
  af_send_lcommunity : Bool := false
  af_send_ecommunity : Bool := false
  change_local_as : Nat := 0
  local_as : Nat := 0
  flag_local_as_replace_as : Bool := false
  nexthop_v4 : Nat := 0
  remote_id : Nat := 0
deriving DecidableEq, Repr

/-- `bgp_attr_parse_ret_t`.  -/
inductive bgp_attr_parse_ret
  | proceed
  | withdraw
  | error
  | error_notifypls
deriving DecidableEq, Repr

/-- NOTIFY subcodes of code `BGP_NOTIFY_UPDATE_ERR` (spec §7 error
taxonomy); symbolic, since `bgp.h` is not among the provided sources.  -/
inductive notify_subcode
  | mal_attr
  | unrec_attr
  | miss_attr
  | attr_flag_err
  | attr_leng_err
  | inval_origin
  | inval_next_hop
  | opt_attr_err
  | mal_as_path
deriving DecidableEq, Repr

/-- One `bgp_notify_send_with_data(peer, BGP_NOTIFY_UPDATE_ERR, subcode,
data, length)` call: the data pointer is an offset into the input buffer
(`none` models a NULL data pointer).  -/
structure notify_msg where
  subcode : notify_subcode
  dataStart : Option Nat
  dataLen : Nat
deriving DecidableEq, Repr

/-- Input stream (`struct stream`): the byte buffer plus the read cursor.
`stream.h` is not among the provided sources; the cursor semantics are
modelled from the spec (§6: "`forward_cursor(n)` semantics are implicit in
the shared stream cursor").  -/
structure stream where
  data : List Nat
  getp : Nat
deriving DecidableEq, Repr

/-- `stream_forward_getp`: advance the read cursor by `n` bytes.  -/
def stream_forward_getp (s : stream) (n : Nat) : stream :=
  { s with getp := s.getp + n }

/-- Byte of the buffer at absolute offset `i` (reads past the end yield 0;
the theorems put the accessed offsets in bounds).  -/
def stream_byte (s : stream) (i : Nat) : Nat :=
  s.data.getD i 0

/-- `stream_getl`: read a 4-byte big-endian word at the cursor and advance.  -/
def stream_getl (s : stream) : Nat × stream :=
  (stream_byte s s.getp * 0x1000000 + stream_byte s (s.getp + 1) * 0x10000 +
      stream_byte s (s.getp + 2) * 0x100 + stream_byte s (s.getp + 3),
    { s with getp := s.getp + 4 })

/-- `struct bgp_attr_parser_args` (the `attr` pointer is threaded
separately; `startp` is the byte offset of the attribute header in the
input buffer, `total` the attribute's total encoded size).  -/
structure bgp_attr_parser_args where
  peer : peer
  length : Nat
  type : Nat
  flags : Nat
  startp : Nat
  total : Nat
deriving DecidableEq, Repr

/-! ### The malformed-attribute policy (`bgp_attr_malformed`) -/

/-- Observable outcome of `bgp_attr_malformed`: the parse result, the
updated presence bitmap of the scratch attribute set, the updated stream
read cursor, and the NOTIFY sent (if any).  -/
structure malformed_result where
  ret : bgp_attr_parse_ret
  attr_flag : Nat
  getp : Nat
  notified : Option notify_msg
deriving DecidableEq, Repr

/-- `bgp_attr_malformed(args, subcode, length)` acting on presence bitmap
`attr_flag` and stream cursor `getp`.  Mirrors bgp_attr.c lines 802-864:
clear the failing attribute's presence bit; non-eBGP peers always get a
NOTIFY and `Error`; for eBGP peers the cursor is first set to the end of
the attribute, then inconsequential types proceed, core types notify and
error, optional+transitive+partial flags withdraw, everything else
notifies and errors.  -/
def bgp_attr_malformed (args : bgp_attr_parser_args) (subcode : notify_subcode)
    (length : Nat) (attr_flag : Nat) (getp : Nat) : malformed_result :=
  let notify_datap : Option Nat := if length > 0 then some args.startp else none
  let flag1 : Nat := UNSET_FLAG attr_flag (ATTR_FLAG_BIT args.type)
  if args.peer.sort ≠ .ebgp then
    { ret := .error, attr_flag := flag1, getp := getp,
      notified := some ⟨subcode, notify_datap, length⟩ }
  else
    let getp1 : Nat := args.startp + args.total
    if args.type = BGP_ATTR_AS4_AGGREGATOR ∨ args.type = BGP_ATTR_AGGREGATOR ∨
        args.type = BGP_ATTR_ATOMIC_AGGREGATE then
      { ret := .proceed, attr_flag := flag1, getp := getp1, notified := none }
    else if args.type = BGP_ATTR_ORIGIN ∨ args.type = BGP_ATTR_AS_PATH ∨
        args.type = BGP_ATTR_NEXT_HOP ∨ args.type = BGP_ATTR_MULTI_EXIT_DISC ∨
        args.type = BGP_ATTR_LOCAL_PREF ∨ args.type = BGP_ATTR_COMMUNITIES ∨
        args.type = BGP_ATTR_ORIGINATOR_ID ∨ args.type = BGP_ATTR_CLUSTER_LIST ∨
        args.type = BGP_ATTR_MP_REACH_NLRI ∨ args.type = BGP_ATTR_MP_UNREACH_NLRI ∨
        args.type = BGP_ATTR_EXT_COMMUNITIES then
      { ret := .error, attr_flag := flag1, getp := getp1,
        notified := some ⟨subcode, notify_datap, length⟩ }
    else if CHECK_FLAG args.flags BGP_ATTR_FLAG_TRANS &&
        CHECK_FLAG args.flags BGP_ATTR_FLAG_OPTIONAL &&
        CHECK_FLAG args.flags BGP_ATTR_FLAG_PARTIAL then
      { ret := .withdraw, attr_flag := flag1, getp := getp1, notified := none }
    else
      { ret := .error, attr_flag := flag1, getp := getp1,
        notified := some ⟨subcode, notify_datap, length⟩ }

/-- The attribute types `bgp_attr_malformed` treats as inconsequential.  -/
def malformed_inconsequential (t : Nat) : Bool :=
  t = BGP_ATTR_AS4_AGGREGATOR || t = BGP_ATTR_AGGREGATOR ||
    t = BGP_ATTR_ATOMIC_AGGREGATE

/-- The core attribute types for which `bgp_attr_malformed` always resets
the session.  -/
def malformed_core (t : Nat) : Bool :=
  t = BGP_ATTR_ORIGIN || t = BGP_ATTR_AS_PATH || t = BGP_ATTR_NEXT_HOP ||
    t = BGP_ATTR_MULTI_EXIT_DISC || t = BGP_ATTR_LOCAL_PREF ||
    t = BGP_ATTR_COMMUNITIES || t = BGP_ATTR_ORIGINATOR_ID ||
    t = BGP_ATTR_CLUSTER_LIST || t = BGP_ATTR_MP_REACH_NLRI ||
    t = BGP_ATTR_MP_UNREACH_NLRI || t = BGP_ATTR_EXT_COMMUNITIES

theorem check_flag_pow_eq_testBit (v i : Nat) :
    CHECK_FLAG v (2 ^ i) = v.testBit i := by
  simp only [CHECK_FLAG, Nat.and_two_pow]
  cases h : v.testBit i
  · simp
  · simp [(pow_pos (by norm_num : (0 : Nat) < 2) i).ne']

theorem unset_flag_testBit (v f i : Nat) :
    (UNSET_FLAG v f).testBit i = (v.testBit i && !(f.testBit i)) := by
  simp [UNSET_FLAG, Nat.testBit_ldiff]

theorem malformed_inconsequential_iff (t : Nat) :
    malformed_inconsequential t = true ↔
      (t = BGP_ATTR_AS4_AGGREGATOR ∨ t = BGP_ATTR_AGGREGATOR ∨
        t = BGP_ATTR_ATOMIC_AGGREGATE) := by
  simp [malformed_inconsequential, Bool.or_eq_true, decide_eq_true_eq, or_assoc]

theorem malformed_core_iff (t : Nat) :
    malformed_core t = true ↔
      (t = BGP_ATTR_ORIGIN ∨ t = BGP_ATTR_AS_PATH ∨ t = BGP_ATTR_NEXT_HOP ∨
        t = BGP_ATTR_MULTI_EXIT_DISC ∨ t = BGP_ATTR_LOCAL_PREF ∨
        t = BGP_ATTR_COMMUNITIES ∨ t = BGP_ATTR_ORIGINATOR_ID ∨
        t = BGP_ATTR_CLUSTER_LIST ∨ t = BGP_ATTR_MP_REACH_NLRI ∨
        t = BGP_ATTR_MP_UNREACH_NLRI ∨ t = BGP_ATTR_EXT_COMMUNITIES) := by
  simp [malformed_core, Bool.or_eq_true, decide_eq_true_eq, or_assoc]

/-- C1: for every malformed attribute, `bgp_attr_malformed` clears the
failing type's presence bit in the scratch attribute set (leaving every
other bit of the presence bitmap unchanged) and returns `Error` (with a
NOTIFY carrying the given subcode) for non-eBGP peers; for eBGP peers it
returns `Proceed` on Aggregator/AS4-Aggregator/Atomic-Aggregate, `Error`
(with NOTIFY) on the eleven core attribute types, `Withdraw` when the
attribute's flags have Optional, Transitive and Partial all set, and
`Error` (with NOTIFY) in every remaining case.  -/
theorem bgp_attr_malformed_policy (args : bgp_attr_parser_args)
    (subcode : notify_subcode) (length : Nat) (attr_flag getp : Nat) :
    let res := bgp_attr_malformed args subcode length attr_flag getp
    (CHECK_FLAG res.attr_flag (ATTR_FLAG_BIT args.type) = false) ∧
    (∀ i : Nat, i ≠ args.type - 1 → res.attr_flag.testBit i = attr_flag.testBit i) ∧
    res.ret =
      (if args.peer.sort ≠ .ebgp then .error
       else if malformed_inconsequential args.type then .proceed
       else if malformed_core args.type then .error
       else if CHECK_FLAG args.flags BGP_ATTR_FLAG_OPTIONAL &&
           CHECK_FLAG args.flags BGP_ATTR_FLAG_TRANS &&
           CHECK_FLAG args.flags BGP_ATTR_FLAG_PARTIAL then .withdraw
       else .error) ∧
    (res.notified =
      (if res.ret = .error then
        some ⟨subcode, if length > 0 then some args.startp else none, length⟩
       else none)) := by
  refine ⟨?_, ?_, ?_, ?_⟩
  · simp only [bgp_attr_malformed, ATTR_FLAG_BIT]
    split_ifs <;>
      simp [check_flag_pow_eq_testBit, unset_flag_testBit, ATTR_FLAG_BIT,
        Nat.testBit_two_pow_self]
  · intro i hi
    have hbit : ¬ (ATTR_FLAG_BIT args.type).testBit i := by
      simpa [ATTR_FLAG_BIT] using
        (Nat.testBit_two_pow_of_ne (fun h => hi h.symm))
    simp only [bgp_attr_malformed]
    split_ifs <;> simp [unset_flag_testBit, hbit]
  · simp only [bgp_attr_malformed]
    by_cases hs : args.peer.sort ≠ .ebgp
    · simp [hs]
    · by_cases h1 : args.type = BGP_ATTR_AS4_AGGREGATOR ∨
          args.type = BGP_ATTR_AGGREGATOR ∨ args.type = BGP_ATTR_ATOMIC_AGGREGATE
      · simp [hs, h1, (malformed_inconsequential_iff args.type).mpr h1]
      · have hmi : malformed_inconsequential args.type = false := by
          rw [Bool.eq_false_iff]
          intro hc
          exact h1 ((malformed_inconsequential_iff args.type).mp hc)
        by_cases h2 : args.type = BGP_ATTR_ORIGIN ∨ args.type = BGP_ATTR_AS_PATH ∨
            args.type = BGP_ATTR_NEXT_HOP ∨ args.type = BGP_ATTR_MULTI_EXIT_DISC ∨
            args.type = BGP_ATTR_LOCAL_PREF ∨ args.type = BGP_ATTR_COMMUNITIES ∨
            args.type = BGP_ATTR_ORIGINATOR_ID ∨ args.type = BGP_ATTR_CLUSTER_LIST ∨
            args.type = BGP_ATTR_MP_REACH_NLRI ∨ args.type = BGP_ATTR_MP_UNREACH_NLRI ∨
            args.type = BGP_ATTR_EXT_COMMUNITIES
        · simp [hs, h1, h2, hmi, (malformed_core_iff args.type).mpr h2]
        · have hmc : malformed_core args.type = false := by
            rw [Bool.eq_false_iff]
            intro hc
            exact h2 ((malformed_core_iff args.type).mp hc)
          by_cases h3 : (CHECK_FLAG args.flags BGP_ATTR_FLAG_TRANS &&
              CHECK_FLAG args.flags BGP_ATTR_FLAG_OPTIONAL &&
              CHECK_FLAG args.flags BGP_ATTR_FLAG_PARTIAL) = true
          · have h3' : (CHECK_FLAG args.flags BGP_ATTR_FLAG_OPTIONAL &&
                CHECK_FLAG args.flags BGP_ATTR_FLAG_TRANS &&
                CHECK_FLAG args.flags BGP_ATTR_FLAG_PARTIAL) = true := by
              simp only [Bool.and_eq_true] at h3 ⊢
              tauto
            simp [hs, h1, h2, h3, h3', hmi, hmc]
          · have h3' : (CHECK_FLAG args.flags BGP_ATTR_FLAG_OPTIONAL &&
                CHECK_FLAG args.flags BGP_ATTR_FLAG_TRANS &&
                CHECK_FLAG args.flags BGP_ATTR_FLAG_PARTIAL) = false := by
              simp only [Bool.eq_false_iff, ne_eq, Bool.and_eq_true] at h3 ⊢
              tauto
            simp [hs, h1, h2, h3, h3', hmi, hmc]
  · simp only [bgp_attr_malformed]
    split_ifs <;> simp_all

/-- Witness for `bgp_attr_malformed_policy` at a concrete input: an eBGP
peer and a malformed unknown optional+transitive+partial attribute of
type 99 yields `Withdraw` with no NOTIFY.  -/
theorem bgp_attr_malformed_policy_witness :
    (bgp_attr_malformed
        ⟨⟨.ebgp, false, false, false, false, false, false, false, 0, 0, false, 0, 0⟩,
          4, 99, 0xE0, 10, 7⟩ .opt_attr_err 7 (ATTR_FLAG_BIT 99) 13).ret = .withdraw := by
  have h := bgp_attr_malformed_policy
    ⟨⟨.ebgp, false, false, false, false, false, false, false, 0, 0, false, 0, 0⟩,
      4, 99, 0xE0, 10, 7⟩ .opt_attr_err 7 (ATTR_FLAG_BIT 99) 13
  have hret := h.2.2.1
  rw [hret]
  decide

/-- Concrete input for the C3 counterexample: a malformed Communities
attribute (type 8, ordinary well-known flags) from an iBGP peer, spanning
buffer offsets 10..16, with the read cursor at 13 when the policy runs.  -/
def c3_args : bgp_attr_parser_args :=
  ⟨⟨.ibgp, false, false, false, false, false, false, false, 0, 0, false, 0, 0⟩,
    4, BGP_ATTR_COMMUNITIES, 0x40, 10, 7⟩

/-- C3 counterexample: for an iBGP peer, `bgp_attr_malformed` returns
`Error` with the read cursor left where it was (13), not advanced to the
end of the failing attribute (`startp + total = 17`), refuting the claim
that the cursor is advanced for every peer type.  -/
theorem bgp_attr_malformed_cursor_counterexample :
    (bgp_attr_malformed c3_args .opt_attr_err 7 (ATTR_FLAG_BIT 8) 13).ret = .error ∧
    (bgp_attr_malformed c3_args .opt_attr_err 7 (ATTR_FLAG_BIT 8) 13).getp = 13 ∧
    c3_args.startp + c3_args.total = 17 := by
  decide

/-- C3 (amended): for an eBGP peer `bgp_attr_malformed` always advances
the read cursor to the end of the failing attribute (attribute start plus
total encoded length) before returning — in particular whenever it
returns `Error` or `Withdraw`; for a non-eBGP peer it returns `Error`
with the cursor unchanged.  -/
theorem bgp_attr_malformed_cursor (args : bgp_attr_parser_args)
    (subcode : notify_subcode) (length : Nat) (attr_flag getp : Nat) :
    let res := bgp_attr_malformed args subcode length attr_flag getp
    (args.peer.sort = .ebgp → res.getp = args.startp + args.total) ∧
    (args.peer.sort ≠ .ebgp → res.getp = getp ∧ res.ret = .error) := by
  constructor
  · intro hs
    simp only [bgp_attr_malformed, hs]
    split_ifs <;> simp_all
  · intro hs
    simp [bgp_attr_malformed, if_pos hs]

/-- Witness for `bgp_attr_malformed_cursor`: on the C3 counterexample
input, switching the peer to eBGP makes the cursor land at offset 17.  -/
theorem bgp_attr_malformed_cursor_witness :
    (bgp_attr_malformed ⟨⟨.ebgp, false, false, false, false, false, false,
        false, 0, 0, false, 0, 0⟩, 4, BGP_ATTR_COMMUNITIES, 0x40, 10, 7⟩
        .opt_attr_err 7 (ATTR_FLAG_BIT 8) 13).getp = 17 := by
  have h := (bgp_attr_malformed_cursor ⟨⟨.ebgp, false, false, false, false,
    false, false, false, 0, 0, false, 0, 0⟩, 4, BGP_ATTR_COMMUNITIES, 0x40, 10, 7⟩
    .opt_attr_err 7 (ATTR_FLAG_BIT 8) 13).1 rfl
  simpa using h

/-! ### Mandatory well-known attribute check (`bgp_attr_check`) -/

/-- `bgp_attr_check(peer, attr)` over the presence bitmap `attrflag`
(bgp_attr.c lines 1787-1830).  Returns the parse result and the NOTIFY
sent, if any: subcode plus its data, the one-byte list naming a missing
attribute type.  The local `type` variable is assigned across the four
non-exclusive `if` checks exactly as in the source (no early exit), so a
later check overwrites the type recorded by an earlier one.  -/
def bgp_attr_check (p : peer) (attrflag : Nat) :
    bgp_attr_parse_ret × Option (notify_subcode × List Nat) :=
  if p.cap_restart_rcv ∧ attrflag = 0 then (.proceed, none)
  else if attrflag = ATTR_FLAG_BIT BGP_ATTR_MP_UNREACH_NLRI then (.proceed, none)
  else
    let type0 : Nat := 0
    let type1 : Nat :=
      if CHECK_FLAG attrflag (ATTR_FLAG_BIT BGP_ATTR_ORIGIN) = false then
        BGP_ATTR_ORIGIN else type0
    let type2 : Nat :=
      if CHECK_FLAG attrflag (ATTR_FLAG_BIT BGP_ATTR_AS_PATH) = false then
        BGP_ATTR_AS_PATH else type1
    let type3 : Nat :=
      if CHECK_FLAG attrflag (ATTR_FLAG_BIT BGP_ATTR_NEXT_HOP) = false ∧
          CHECK_FLAG attrflag (ATTR_FLAG_BIT BGP_ATTR_MP_REACH_NLRI) = false then
        BGP_ATTR_NEXT_HOP else type2
    let type4 : Nat :=
      if p.sort = .ibgp ∧
          CHECK_FLAG attrflag (ATTR_FLAG_BIT BGP_ATTR_LOCAL_PREF) = false then
        BGP_ATTR_LOCAL_PREF else type3
    if type4 ≠ 0 then (.error, some (.miss_attr, [type4]))
    else (.proceed, none)

/-- The mandatory well-known attributes missing from presence bitmap
`attrflag` for peer `p`, in the fixed check order of `bgp_attr_check`:
Origin, AS-Path, Next-Hop (unless MP-Reach-NLRI substitutes for it),
Local-Pref (for iBGP peers).  This is the spec-side reading of the claim,
to be compared with what the code reports.  -/
def missing_mandatory (p : peer) (attrflag : Nat) : List Nat :=
  (if CHECK_FLAG attrflag (ATTR_FLAG_BIT BGP_ATTR_ORIGIN) = false then
    [BGP_ATTR_ORIGIN] else []) ++
  (if CHECK_FLAG attrflag (ATTR_FLAG_BIT BGP_ATTR_AS_PATH) = false then
    [BGP_ATTR_AS_PATH] else []) ++
  (if CHECK_FLAG attrflag (ATTR_FLAG_BIT BGP_ATTR_NEXT_HOP) = false ∧
      CHECK_FLAG attrflag (ATTR_FLAG_BIT BGP_ATTR_MP_REACH_NLRI) = false then
    [BGP_ATTR_NEXT_HOP] else []) ++
  (if p.sort = .ibgp ∧
      CHECK_FLAG attrflag (ATTR_FLAG_BIT BGP_ATTR_LOCAL_PREF) = false then
    [BGP_ATTR_LOCAL_PREF] else [])

/-- C2: on a message that is neither a Graceful-Restart End-of-RIB marker
(restart-capable peer, empty presence bitmap) nor MP-Unreach-NLRI-only,
`bgp_attr_check` returns `Error` and sends a NOTIFY with subcode
MissingAttribute exactly when some mandatory well-known attribute is
missing; the NOTIFY data names exactly one attribute type, namely the
last missing one in the fixed check order Origin, AS-Path, Next-Hop,
Local-Pref.  -/
theorem bgp_attr_check_missing (p : peer) (attrflag : Nat)
    (hEoR : ¬(p.cap_restart_rcv ∧ attrflag = 0))
    (hMpu : attrflag ≠ ATTR_FLAG_BIT BGP_ATTR_MP_UNREACH_NLRI) :
    (missing_mandatory p attrflag ≠ [] →
      bgp_attr_check p attrflag =
        (.error, some (.miss_attr, [(missing_mandatory p attrflag).getLastD 0]))) ∧
    (missing_mandatory p attrflag = [] →
      bgp_attr_check p attrflag = (.proceed, none)) := by
  simp only [bgp_attr_check, missing_mandatory, if_neg hEoR, if_neg hMpu]
  by_cases h1 : CHECK_FLAG attrflag (ATTR_FLAG_BIT BGP_ATTR_ORIGIN) = false <;>
    by_cases h2 : CHECK_FLAG attrflag (ATTR_FLAG_BIT BGP_ATTR_AS_PATH) = false <;>
    by_cases h3 : CHECK_FLAG attrflag (ATTR_FLAG_BIT BGP_ATTR_NEXT_HOP) = false ∧
      CHECK_FLAG attrflag (ATTR_FLAG_BIT BGP_ATTR_MP_REACH_NLRI) = false <;>
    by_cases h4 : p.sort = .ibgp ∧
      CHECK_FLAG attrflag (ATTR_FLAG_BIT BGP_ATTR_LOCAL_PREF) = false <;>
    simp [h1, h2, h3, h4] <;> decide

/-- Witness for `bgp_attr_check_missing`: an iBGP peer whose message
carries only Origin and AS-Path (and is not End-of-RIB or
MP-Unreach-only) is reported missing Local-Pref — the last missing
attribute in check order, even though Next-Hop is missing as well.  -/
theorem bgp_attr_check_missing_witness :
    bgp_attr_check
        ⟨.ibgp, false, false, false, false, false, false, false, 0, 0, false, 0, 0⟩
        (ATTR_FLAG_BIT BGP_ATTR_ORIGIN ||| ATTR_FLAG_BIT BGP_ATTR_AS_PATH) =
      (.error, some (.miss_attr, [BGP_ATTR_LOCAL_PREF])) := by
  have h := (bgp_attr_check_missing
    ⟨.ibgp, false, false, false, false, false, false, false, 0, 0, false, 0, 0⟩
    (ATTR_FLAG_BIT BGP_ATTR_ORIGIN ||| ATTR_FLAG_BIT BGP_ATTR_AS_PATH)
    (by decide) (by decide)).1 (by decide)
  rw [h]
  decide

/-! ### The attribute set, encap sub-TLV chains and `attrhash_cmp` -/

/-- `struct bgp_attr_encap_subtlv`: one (type, length, value) record of
the tunnel-encapsulation sub-TLV chain (the chain itself is a Lean list
standing for the singly linked `next` pointers).  -/
structure bgp_attr_encap_subtlv where
  type : Nat
  length : Nat
  value : List Nat
deriving DecidableEq, Repr

/-- The sub-TLV comparison done inside the `encap_same` loops:
`p->type == q->type && p->length == q->length &&
!memcmp(p->value, q->value, p->length)`.  -/
def encap_subtlv_match (p q : bgp_attr_encap_subtlv) : Bool :=
  p.type == q.type && p.length == q.length &&
    p.value.take p.length == q.value.take p.length

/-- `encap_same` (bgp_attr.c lines 260-300): NULL/NULL chains are
equivalent, NULL against non-NULL is not, pointer-identical chains are
(modelled as list equality), and otherwise each chain is scanned for a
matching sub-TLV of the other (two nested loops).  -/
def encap_same (h1 h2 : List bgp_attr_encap_subtlv) : Bool :=
  if h1 = [] ∧ h2 = [] then true
  else if h1 ≠ [] ∧ h2 = [] then false
  else if h1 = [] ∧ h2 ≠ [] then false
  else if h1 = h2 then true
  else
    (h1.all fun p => h2.any fun q => encap_subtlv_match p q) &&
    (h2.all fun p => h1.any fun q => encap_subtlv_match p q)

/-- `struct transit`: the opaque blob of unrecognized transitive
attributes (`val` bytes, declared `length`); its reference count lives in
the transit pool.  -/
structure transit where
  length : Nat
  val : List Nat
deriving DecidableEq, Repr

/-- The slice of `struct attr_extra` compared by `attrhash_cmp` and
mutated by the decoders.  Interned references (extended/large
communities, cluster list) are opaque canonical identities; IPv6
next-hops are byte lists.  -/
structure attr_extra where
  aggregator_as : Nat := 0
  aggregator_addr : Nat := 0
  weight : Nat := 0
  priority : Nat := 0
  tag : Nat := 0
  mp_nexthop_len : Nat := 0
  mp_nexthop_global : List Nat := []
  mp_nexthop_local : List Nat := []
  mp_nexthop_global_in : Nat := 0
  ecommunity : Option Nat := none
  lcommunity : Option Nat := none
  cluster : Option Nat := none
  transit : Option transit := none
  encap_tunneltype : Nat := 0
  encap_subtlvs : List bgp_attr_encap_subtlv := []
  originator_id : Nat := 0
deriving DecidableEq, Repr

/-- `struct attr`: presence bitmap, fixed fields, canonical references
(AS-path, community) and the lazily allocated extra block.  -/
structure attr where
  flag : Nat := 0
  origin : Nat := 0
  nexthop : Nat := 0
  aspath : Option Nat := none
  community : Option Nat := none
  med : Nat := 0
  local_pref : Nat := 0
  extra : Option attr_extra := none
deriving DecidableEq, Repr

/-- `attrhash_cmp` (bgp_attr.c lines 488-510).  Reference fields
(`aspath`, `community`, `ecommunity`, `lcommunity`, `cluster`, `transit`)
are compared exactly as the C compares their pointers: equality of the
canonical identities.  If both attrs carry an extra block every extra
field must match (with `encap_same` deciding the sub-TLV chains); if only
one carries an extra block they differ; if neither does they are equal.  -/
def attrhash_cmp (attr1 attr2 : attr) : Bool :=
  if attr1.flag = attr2.flag ∧ attr1.origin = attr2.origin ∧
      attr1.nexthop = attr2.nexthop ∧ attr1.aspath = attr2.aspath ∧
      attr1.community = attr2.community ∧ attr1.med = attr2.med ∧
      attr1.local_pref = attr2.local_pref then
    match attr1.extra, attr2.extra with
    | some ae1, some ae2 =>
      if ae1.aggregator_as = ae2.aggregator_as ∧
          ae1.aggregator_addr = ae2.aggregator_addr ∧ ae1.weight = ae2.weight ∧
          ae1.priority = ae2.priority ∧ ae1.tag = ae2.tag ∧
          ae1.mp_nexthop_len = ae2.mp_nexthop_len ∧
          ae1.mp_nexthop_global = ae2.mp_nexthop_global ∧
          ae1.mp_nexthop_local = ae2.mp_nexthop_local ∧
          ae1.mp_nexthop_global_in = ae2.mp_nexthop_global_in ∧
          ae1.ecommunity = ae2.ecommunity ∧ ae1.lcommunity = ae2.lcommunity ∧
          ae1.cluster = ae2.cluster ∧ ae1.transit = ae2.transit ∧
          ae1.encap_tunneltype = ae2.encap_tunneltype ∧
          encap_same ae1.encap_subtlvs ae2.encap_subtlvs = true ∧
          ae1.originator_id = ae2.originator_id then true
      else false
    | none, none => true
    | _, _ => false
  else false

theorem encap_subtlv_match_refl (p : bgp_attr_encap_subtlv) :
    encap_subtlv_match p p = true := by
  simp [encap_subtlv_match]

theorem encap_same_iff (h1 h2 : List bgp_attr_encap_subtlv) :
    encap_same h1 h2 = true ↔
      ((∀ p ∈ h1, ∃ q ∈ h2, encap_subtlv_match p q = true) ∧
        (∀ p ∈ h2, ∃ q ∈ h1, encap_subtlv_match p q = true)) := by
  unfold encap_same
  split_ifs with hA hB hC hD
  · simp [hA.1, hA.2]
  · rcases hB with ⟨hne, he⟩
    rcases List.exists_mem_of_ne_nil h1 hne with ⟨p, hp⟩
    subst he
    constructor
    · intro hfalse
      exact hfalse.elim
    · rintro ⟨hcon, -⟩
      rcases hcon p hp with ⟨q, hq, -⟩
      exact absurd hq (List.not_mem_nil q)
  · rcases hC with ⟨he, hne⟩
    rcases List.exists_mem_of_ne_nil h2 hne with ⟨p, hp⟩
    subst he
    constructor
    · intro hfalse
      exact hfalse.elim
    · rintro ⟨-, hcon⟩
      rcases hcon p hp with ⟨q, hq, -⟩
      exact absurd hq (List.not_mem_nil q)
  · subst hD
    simp only [true_iff]
    exact ⟨fun p hp => ⟨p, hp, encap_subtlv_match_refl p⟩,
      fun p hp => ⟨p, hp, encap_subtlv_match_refl p⟩⟩
  · simp [List.all_eq_true, List.any_eq_true]

theorem encap_same_refl (h : List bgp_attr_encap_subtlv) :
    encap_same h h = true := by
  exact (encap_same_iff h h).mpr
    ⟨fun p hp => ⟨p, hp, encap_subtlv_match_refl p⟩,
      fun p hp => ⟨p, hp, encap_subtlv_match_refl p⟩⟩

theorem attrhash_cmp_refl (a : attr) : attrhash_cmp a a = true := by
  unfold attrhash_cmp
  rw [if_pos (by tauto)]
  cases a.extra with
  | none => rfl
  | some ae => simp [encap_same_refl]

theorem encap_same_of_perm (h1 h2 : List bgp_attr_encap_subtlv)
    (hp : h2.Perm h1) : encap_same h1 h2 = true := by
  refine (encap_same_iff h1 h2).mpr ⟨?_, ?_⟩
  · intro p hpm
    exact ⟨p, hp.mem_iff.mpr hpm, encap_subtlv_match_refl p⟩
  · intro p hpm
    exact ⟨p, hp.mem_iff.mp hpm, encap_subtlv_match_refl p⟩

/-! ### The interning pools

The generic hash-table machinery (`lib/hash.c`) and the collaborator
pools (`bgp_aspath.c`, `bgp_community.c`, …) are not among the provided
sources.  Modelled from the spec (§4.4): `intern(value) -> Ref` returns a
shared, refcounted handle — either a freshly inserted canonical value
(refcount 1) or an existing canonical value with its refcount
incremented; `release` decrements and, at zero, removes from the table
and frees.  Collaborator values are opaque canonical identities, so their
pools are maps from identity to reference count; the transit pool and the
AttributeSet pool are association lists searched with the comparison
functions that `bgp_attr.c` registers for them.  -/

/-- `transit_hash_cmp` (bgp_attr.c lines 349-354): equal declared length
and `memcmp` of `length` value bytes.  -/
def transit_hash_cmp (t1 t2 : transit) : Bool :=
  t1.length == t2.length && t1.val.take t1.length == t2.val.take t1.length

/-- `transit_intern` (bgp_attr.c lines 317-327): `hash_get` with
`transit_hash_alloc` (which keeps the offered object), freeing the
offered object if an equal one already sits in the table, then a
refcount bump; returns the canonical object.  -/
def transit_intern : transit → List (transit × Nat) → transit × List (transit × Nat)
  | t, [] => (t, [(t, 1)])
  | t, e :: rest =>
    if transit_hash_cmp e.1 t then (e.1, (e.1, e.2 + 1) :: rest)
    else
      let r := transit_intern t rest
      (r.1, e :: r.2)

/-- `transit->refcnt` of the object `t` (0 when `t` is not in the table,
matching a freshly allocated object).  -/
def transit_refcnt : List (transit × Nat) → transit → Nat
  | [], _ => 0
  | e :: rest, t => if e.1 = t then e.2 else transit_refcnt rest t

/-- `attre->transit->refcnt++` on the table entry of the object `t`.  -/
def transit_bump_at : List (transit × Nat) → transit → List (transit × Nat)
  | [], _ => []
  | e :: rest, t =>
    if e.1 = t then (e.1, e.2 + 1) :: rest else e :: transit_bump_at rest t

/-- `transit_unintern` (bgp_attr.c lines 329-341): decrement the nonzero
refcount of `t`; at zero, release the entry from the table and free it.  -/
def transit_unintern : transit → List (transit × Nat) → List (transit × Nat)
  | _, [] => []
  | t, e :: rest =>
    if e.1 = t then
      let r := if e.2 ≠ 0 then e.2 - 1 else e.2
      if r = 0 then rest else (e.1, r) :: rest
    else e :: transit_unintern t rest

/-- Modelled from the spec: intern of a collaborator reference (AS-path,
community, extended/large community, cluster list).  Under the
identity-keyed model both branches of the C code — `aspath_intern` on a
fresh (refcount-0) object and a plain `refcnt++` on an already canonical
one — bump the identity's count by one.  -/
def ref_intern (refcnt : Nat → Nat) (i : Nat) : Nat → Nat :=
  fun j => if j = i then refcnt i + 1 else refcnt j

/-- Modelled from the spec: release of a collaborator reference
(`aspath_unintern` and friends): decrement, a count of zero meaning the
object was removed and freed.  -/
def ref_unintern (refcnt : Nat → Nat) (i : Nat) : Nat → Nat :=
  fun j => if j = i then refcnt i - 1 else refcnt j

/-- Process-wide interning state: the collaborator reference pools, the
transit table and the AttributeSet pool `attrhash` (association list of
allocation identity, stored canonical value and reference count;
`next_id` supplies fresh allocation identities).  -/
structure attr_pools where
  aspath : Nat → Nat
  community : Nat → Nat
  ecommunity : Nat → Nat
  lcommunity : Nat → Nat
  cluster : Nat → Nat
  transit_tbl : List (transit × Nat)
  attrs : List (Nat × attr × Nat)
  next_id : Nat

/-- `hash_get(attrhash, attr, ...)` lookup part: the first entry equal to
`a` under `attrhash_cmp`.  -/
def attr_find : List (Nat × attr × Nat) → attr → Option Nat
  | [], _ => none
  | e :: rest, a => if attrhash_cmp e.2.1 a then some e.1 else attr_find rest a

/-- `find->refcnt++` on the attribute-pool entry with identity `i`.  -/
def attr_bump : List (Nat × attr × Nat) → Nat → List (Nat × attr × Nat)
  | [], _ => []
  | e :: rest, i =>
    if e.1 = i then (e.1, e.2.1, e.2.2 + 1) :: rest else e :: attr_bump rest i

/-- Dereference the canonical attribute with identity `i`: its stored
value and reference count.  -/
def attr_lookup : List (Nat × attr × Nat) → Nat → Option (attr × Nat)
  | [], _ => none
  | e :: rest, i => if e.1 = i then some e.2 else attr_lookup rest i

/-- Overwrite the reference count of the entry with identity `i`.  -/
def attr_set_refcnt : List (Nat × attr × Nat) → Nat → Nat → List (Nat × attr × Nat)
  | [], _, _ => []
  | e :: rest, i, r =>
    if e.1 = i then (e.1, e.2.1, r) :: rest else e :: attr_set_refcnt rest i r

/-- First phase of `bgp_attr_intern` (bgp_attr.c lines 562-608): intern
the referenced structures — AS-path, community and, when the extra block
is present, extended/large communities, cluster list and transit.  The
transit branch follows the C test `if (!attre->transit->refcnt)`: a
refcount-0 (fresh) blob goes through `transit_intern` and the attribute's
pointer is replaced by the canonical object; otherwise the canonical
object's count is bumped in place.  -/
def bgp_attr_intern_refs (a : attr) (st : attr_pools) : attr × attr_pools :=
  let st1 := match a.aspath with
    | some i => { st with aspath := ref_intern st.aspath i }
    | none => st
  let st2 := match a.community with
    | some i => { st1 with community := ref_intern st1.community i }
    | none => st1
  match a.extra with
  | none => (a, st2)
  | some e =>
    let st3 := match e.ecommunity with
      | some i => { st2 with ecommunity := ref_intern st2.ecommunity i }
      | none => st2
    let st4 := match e.lcommunity with
      | some i => { st3 with lcommunity := ref_intern st3.lcommunity i }
      | none => st3
    let st5 := match e.cluster with
      | some i => { st4 with cluster := ref_intern st4.cluster i }
      | none => st4
    match e.transit with
    | none => (a, st5)
    | some t =>
      if transit_refcnt st5.transit_tbl t = 0 then
        let r := transit_intern t st5.transit_tbl
        ({ a with extra := some { e with transit := some r.1 } },
          { st5 with transit_tbl := r.2 })
      else
        (a, { st5 with transit_tbl := transit_bump_at st5.transit_tbl t })

/-- `bgp_attr_intern` (bgp_attr.c lines 559-614): intern the referenced
structures, then `hash_get(attrhash, attr, bgp_attr_hash_alloc)` — a
fresh entry is a deep copy stored with refcount 0 — followed by
`find->refcnt++`.  Returns the canonical instance's identity, the
attribute value as left by the call, and the updated pools.  -/
def bgp_attr_intern (a : attr) (st : attr_pools) : Nat × attr × attr_pools :=
  let r := bgp_attr_intern_refs a st
  match attr_find r.2.attrs r.1 with
  | some i => (i, r.1, { r.2 with attrs := attr_bump r.2.attrs i })
  | none =>
    (r.2.next_id, r.1,
      { r.2 with
        attrs := ((r.2.next_id, r.1, 1) :: r.2.attrs),
        next_id := r.2.next_id + 1 })

/-- `bgp_attr_unintern_sub` (bgp_attr.c lines 703-735): release the
attribute's references to AS-path, community, extended/large communities,
cluster list and transit (the `UNSET_FLAG` calls there mutate only the
caller's temporary copy, so they have no effect on the pools).  -/
def bgp_attr_unintern_sub (a : attr) (st : attr_pools) : attr_pools :=
  let st1 := match a.aspath with
    | some i => { st with aspath := ref_unintern st.aspath i }
    | none => st
  let st2 := match a.community with
    | some i => { st1 with community := ref_unintern st1.community i }
    | none => st1
  match a.extra with
  | none => st2
  | some e =>
    let st3 := match e.ecommunity with
      | some i => { st2 with ecommunity := ref_unintern st2.ecommunity i }
      | none => st2
    let st4 := match e.lcommunity with
      | some i => { st3 with lcommunity := ref_unintern st3.lcommunity i }
      | none => st3
    let st5 := match e.cluster with
      | some i => { st4 with cluster := ref_unintern st4.cluster i }
      | none => st4
    match e.transit with
    | some t => { st5 with transit_tbl := transit_unintern t st5.transit_tbl }
    | none => st5

/-- `bgp_attr_unintern` (bgp_attr.c lines 738-764): decrement the
canonical instance's reference count, remove and free it at zero, then
release the sub-references of the temporary copy.  -/
def bgp_attr_unintern (i : Nat) (st : attr_pools) : attr_pools :=
  match attr_lookup st.attrs i with
  | none => st
  | some ar =>
    let r1 := ar.2 - 1
    let attrs1 :=
      if r1 = 0 then st.attrs.filter (fun e => decide (e.1 ≠ i))
      else attr_set_refcnt st.attrs i r1
    bgp_attr_unintern_sub ar.1 { st with attrs := attrs1 }

theorem transit_hash_cmp_refl (t : transit) : transit_hash_cmp t t = true := by
  simp [transit_hash_cmp]

theorem transit_intern_fst_cmp (t : transit) (tbl : List (transit × Nat)) :
    transit_hash_cmp (transit_intern t tbl).1 t = true := by
  induction tbl with
  | nil => simpa [transit_intern] using transit_hash_cmp_refl t
  | cons e rest ih =>
    by_cases h : transit_hash_cmp e.1 t
    · simp [transit_intern, h]
    · simpa [transit_intern, h] using ih

theorem transit_intern_refcnt_pos (t : transit) (tbl : List (transit × Nat)) :
    transit_refcnt (transit_intern t tbl).2 (transit_intern t tbl).1 ≠ 0 := by
  induction tbl with
  | nil => simp [transit_intern, transit_refcnt]
  | cons e rest ih =>
    by_cases h : transit_hash_cmp e.1 t
    · simp [transit_intern, h, transit_refcnt]
    · have hne : e.1 ≠ (transit_intern t rest).1 := by
        intro he
        rw [he] at h
        exact h (transit_intern_fst_cmp t rest)
      simpa [transit_intern, h, transit_refcnt, hne] using ih

theorem transit_bump_at_refcnt_pos (tbl : List (transit × Nat)) (t : transit)
    (h : transit_refcnt tbl t ≠ 0) :
    transit_refcnt (transit_bump_at tbl t) t ≠ 0 := by
  induction tbl with
  | nil => simp [transit_refcnt] at h
  | cons e rest ih =>
    by_cases he : e.1 = t
    · simp [transit_bump_at, transit_refcnt, he]
    · simp only [transit_refcnt, if_neg he] at h
      simpa [transit_bump_at, transit_refcnt, he] using ih h

theorem attr_find_eq_none (l : List (Nat × attr × Nat)) (a : attr)
    (h : ∀ e ∈ l, attrhash_cmp e.2.1 a = false) : attr_find l a = none := by
  induction l with
  | nil => rfl
  | cons e rest ih =>
    have he := h e (List.mem_cons_self e rest)
    simp only [attr_find, he, Bool.false_eq_true, if_false]
    exact ih (fun x hx => h x (List.mem_cons_of_mem e hx))

theorem attr_lookup_eq_none_of_lt (l : List (Nat × attr × Nat)) (n : Nat)
    (h : ∀ e ∈ l, e.1 < n) : attr_lookup l n = none := by
  induction l with
  | nil => rfl
  | cons e rest ih =>
    have he : e.1 ≠ n := Nat.ne_of_lt (h e (List.mem_cons_self e rest))
    simp only [attr_lookup, he, if_false]
    exact ih (fun x hx => h x (List.mem_cons_of_mem e hx))

theorem filter_ne_id_of_lt (l : List (Nat × attr × Nat)) (n : Nat)
    (h : ∀ e ∈ l, e.1 < n) :
    l.filter (fun e => decide (e.1 ≠ n)) = l := by
  apply List.filter_eq_self.mpr
  intro e he
  exact decide_eq_true (Nat.ne_of_lt (h e he))

theorem bgp_attr_intern_refs_frame (a : attr) (st : attr_pools) :
    (bgp_attr_intern_refs a st).2.attrs = st.attrs ∧
      (bgp_attr_intern_refs a st).2.next_id = st.next_id := by
  obtain ⟨f, o, nh, asp, com, med, lp, ex⟩ := a
  cases ex with
  | none => cases asp <;> cases com <;> simp [bgp_attr_intern_refs]
  | some e =>
    obtain ⟨g1, g2, g3, g4, g5, g6, g7, g8, g9, ec, lc, cl, tr, et, es, oi⟩ := e
    cases asp <;> cases com <;> cases ec <;> cases lc <;> cases cl <;> cases tr <;>
      simp [bgp_attr_intern_refs] <;> split <;> simp

theorem bgp_attr_unintern_sub_frame (a : attr) (st : attr_pools) :
    (bgp_attr_unintern_sub a st).attrs = st.attrs ∧
      (bgp_attr_unintern_sub a st).next_id = st.next_id := by
  obtain ⟨f, o, nh, asp, com, med, lp, ex⟩ := a
  cases ex with
  | none => cases asp <;> cases com <;> simp [bgp_attr_unintern_sub]
  | some e =>
    obtain ⟨g1, g2, g3, g4, g5, g6, g7, g8, g9, ec, lc, cl, tr, et, es, oi⟩ := e
    cases asp <;> cases com <;> cases ec <;> cases lc <;> cases cl <;> cases tr <;>
      simp [bgp_attr_unintern_sub]

theorem bgp_attr_intern_refs_transit (a : attr) (st : attr_pools) :
    ∀ t, (bgp_attr_intern_refs a st).1.extra.bind (fun e => e.transit) = some t →
      transit_refcnt (bgp_attr_intern_refs a st).2.transit_tbl t ≠ 0 := by
  intro t ht
  obtain ⟨f, o, nh, asp, com, med, lp, ex⟩ := a
  cases ex with
  | none => cases asp <;> cases com <;> simp [bgp_attr_intern_refs] at ht
  | some e =>
    obtain ⟨g1, g2, g3, g4, g5, g6, g7, g8, g9, ec, lc, cl, tr, et, es, oi⟩ := e
    cases tr with
    | none => cases asp <;> cases com <;> cases ec <;> cases lc <;> cases cl <;>
        simp [bgp_attr_intern_refs] at ht
    | some t0 =>
      cases asp <;> cases com <;> cases ec <;> cases lc <;> cases cl <;>
        by_cases hrc : transit_refcnt st.transit_tbl t0 = 0 <;>
        simp only [bgp_attr_intern_refs, hrc, if_pos, if_neg, Option.bind,
          Option.some_inj, if_true, if_false] at ht ⊢ <;>
        (try subst ht) <;>
        simp_all [bgp_attr_intern_refs] <;>
        first
          | exact transit_intern_refcnt_pos _ _
          | exact transit_bump_at_refcnt_pos _ _ hrc

theorem bgp_attr_intern_refs_fst (a : attr) (st : attr_pools)
    (h : ∀ t, a.extra.bind (fun e => e.transit) = some t →
      transit_refcnt st.transit_tbl t ≠ 0) :
    (bgp_attr_intern_refs a st).1 = a := by
  obtain ⟨f, o, nh, asp, com, med, lp, ex⟩ := a
  cases ex with
  | none => cases asp <;> cases com <;> simp [bgp_attr_intern_refs]
  | some e =>
    obtain ⟨g1, g2, g3, g4, g5, g6, g7, g8, g9, ec, lc, cl, tr, et, es, oi⟩ := e
    cases tr with
    | none => cases asp <;> cases com <;> cases ec <;> cases lc <;> cases cl <;>
        simp [bgp_attr_intern_refs]
    | some t0 =>
      have hpos := h t0 (by simp)
      cases asp <;> cases com <;> cases ec <;> cases lc <;> cases cl <;>
        simp [bgp_attr_intern_refs, hpos]

theorem bgp_attr_intern_eq_of_find_none (a : attr) (st : attr_pools)
    (h : attr_find (bgp_attr_intern_refs a st).2.attrs
      (bgp_attr_intern_refs a st).1 = none) :
    bgp_attr_intern a st =
      ((bgp_attr_intern_refs a st).2.next_id, (bgp_attr_intern_refs a st).1,
        { (bgp_attr_intern_refs a st).2 with
          attrs := (((bgp_attr_intern_refs a st).2.next_id,
            (bgp_attr_intern_refs a st).1, 1) :: (bgp_attr_intern_refs a st).2.attrs),
          next_id := (bgp_attr_intern_refs a st).2.next_id + 1 }) := by
  unfold bgp_attr_intern
  simp only [h]

theorem bgp_attr_intern_eq_of_find_some (a : attr) (st : attr_pools) (i : Nat)
    (h : attr_find (bgp_attr_intern_refs a st).2.attrs
      (bgp_attr_intern_refs a st).1 = some i) :
    bgp_attr_intern a st =
      (i, (bgp_attr_intern_refs a st).1,
        { (bgp_attr_intern_refs a st).2 with
          attrs := attr_bump (bgp_attr_intern_refs a st).2.attrs i }) := by
  unfold bgp_attr_intern
  simp only [h]

/-- C6: the AttributeSet pool's equality relation compares
tunnel-encapsulation sub-TLV chains as order-independent sets:
`encap_same` holds exactly when every sub-TLV of each chain has a
(type, length, value)-matching sub-TLV in the other chain; consequently
two attribute sets that are identical except for a permutation of their
sub-TLV chains are `attrhash_cmp`-equal, and interning the permuted set
into the pool that holds the first yields the same canonical instance.  -/
theorem attrhash_encap_order_independent :
    (∀ h1 h2 : List bgp_attr_encap_subtlv,
      encap_same h1 h2 = true ↔
        ((∀ p ∈ h1, ∃ q ∈ h2, encap_subtlv_match p q = true) ∧
          (∀ p ∈ h2, ∃ q ∈ h1, encap_subtlv_match p q = true))) ∧
    (∀ (a1 : attr) (e1 : attr_extra) (l2 : List bgp_attr_encap_subtlv),
      a1.extra = some e1 → l2.Perm e1.encap_subtlvs →
        attrhash_cmp a1
          { a1 with extra := some { e1 with encap_subtlvs := l2 } } = true) ∧
    (∀ (st : attr_pools) (a1 : attr) (e1 : attr_extra)
        (l2 : List bgp_attr_encap_subtlv),
      a1.extra = some e1 → e1.transit = none → l2.Perm e1.encap_subtlvs →
      (∀ e ∈ st.attrs, attrhash_cmp e.2.1 a1 = false) →
        (bgp_attr_intern { a1 with extra := some { e1 with encap_subtlvs := l2 } }
            (bgp_attr_intern a1 st).2.2).1 = (bgp_attr_intern a1 st).1) := by
  have hcmp : ∀ (a1 : attr) (e1 : attr_extra) (l2 : List bgp_attr_encap_subtlv),
      a1.extra = some e1 → l2.Perm e1.encap_subtlvs →
      attrhash_cmp a1
        { a1 with extra := some { e1 with encap_subtlvs := l2 } } = true := by
    intro a1 e1 l2 he hp
    have hes : encap_same e1.encap_subtlvs l2 = true := encap_same_of_perm _ _ hp
    simp [attrhash_cmp, he, hes]
  refine ⟨encap_same_iff, hcmp, ?_⟩
  intro st a1 e1 l2 he htr hperm hx
  have hfix1 : (bgp_attr_intern_refs a1 st).1 = a1 := by
    apply bgp_attr_intern_refs_fst
    intro t ht
    rw [he] at ht
    simp [htr] at ht
  have hframe1 := bgp_attr_intern_refs_frame a1 st
  have hfind1 : attr_find (bgp_attr_intern_refs a1 st).2.attrs
      (bgp_attr_intern_refs a1 st).1 = none := by
    rw [hfix1, hframe1.1]
    exact attr_find_eq_none _ _ hx
  have hI1 := bgp_attr_intern_eq_of_find_none a1 st hfind1
  have hfix2 : (bgp_attr_intern_refs
      { a1 with extra := some { e1 with encap_subtlvs := l2 } }
      (bgp_attr_intern a1 st).2.2).1 =
      { a1 with extra := some { e1 with encap_subtlvs := l2 } } := by
    apply bgp_attr_intern_refs_fst
    intro t ht
    simp only [Option.bind] at ht
    have : e1.transit = some t := ht
    rw [htr] at this
    exact absurd this (by simp)
  have hframe2 := bgp_attr_intern_refs_frame
    { a1 with extra := some { e1 with encap_subtlvs := l2 } }
    (bgp_attr_intern a1 st).2.2
  have hfind2 : attr_find
      (bgp_attr_intern_refs { a1 with extra := some { e1 with encap_subtlvs := l2 } }
        (bgp_attr_intern a1 st).2.2).2.attrs
      (bgp_attr_intern_refs { a1 with extra := some { e1 with encap_subtlvs := l2 } }
        (bgp_attr_intern a1 st).2.2).1 =
      some (bgp_attr_intern a1 st).1 := by
    rw [hfix2, hframe2.1, hI1]
    simp only [hfix1]
    simp [attr_find, hcmp a1 e1 l2 he hperm]
  rw [bgp_attr_intern_eq_of_find_some _ _ _ hfind2]

/-- Concrete permuted sub-TLV chains and pool state for the C6 witness.  -/
def c6_chain1 : List bgp_attr_encap_subtlv :=
  [⟨1, 2, [0xAA, 0xBB]⟩, ⟨2, 1, [0xCC]⟩]

/-- Empty interning pools (daemon just started).  -/
def empty_pools : attr_pools :=
  { aspath := fun _ => 0, community := fun _ => 0, ecommunity := fun _ => 0,
    lcommunity := fun _ => 0, cluster := fun _ => 0, transit_tbl := [],
    attrs := [], next_id := 0 }

/-- Witness for `attrhash_encap_order_independent`: an attribute set whose
chain is `c6_chain1` and its reversal intern to the same canonical
instance in the empty pool.  -/
theorem attrhash_encap_order_independent_witness :
    (bgp_attr_intern
        { extra := some { encap_subtlvs := c6_chain1.reverse } }
        (bgp_attr_intern { extra := some { encap_subtlvs := c6_chain1 } }
          empty_pools).2.2).1 =
      (bgp_attr_intern { extra := some { encap_subtlvs := c6_chain1 } }
        empty_pools).1 := by
  have h := attrhash_encap_order_independent.2.2 empty_pools
    { extra := some { encap_subtlvs := c6_chain1 } }
    { encap_subtlvs := c6_chain1 } c6_chain1.reverse rfl rfl
    (List.reverse_perm c6_chain1) (by intro e he; simp [empty_pools] at he)
  exact h

/-- C7: interning an attribute value that has no `attrhash_cmp`-equal
entry in the AttributeSet pool and then interning the equal value again
returns the same canonical instance with reference count 2; two
subsequent `bgp_attr_unintern` calls bring the count to 1 and then to
zero, removing the instance from the table and freeing it, which returns
the table to its prior state.  -/
theorem bgp_attr_intern_refcount (x : attr) (st : attr_pools)
    (hWF : ∀ e ∈ st.attrs, e.1 < st.next_id)
    (hx : ∀ e ∈ st.attrs, attrhash_cmp e.2.1 (bgp_attr_intern_refs x st).1 = false) :
    let r1 := bgp_attr_intern x st
    let r2 := bgp_attr_intern r1.2.1 r1.2.2
    let s3 := bgp_attr_unintern r1.1 r2.2.2
    let s4 := bgp_attr_unintern r1.1 s3
    r2.1 = r1.1 ∧
    attr_lookup r2.2.2.attrs r1.1 = some (r1.2.1, 2) ∧
    attr_lookup s3.attrs r1.1 = some (r1.2.1, 1) ∧
    attr_lookup s4.attrs r1.1 = none ∧
    s4.attrs = st.attrs := by
  intro r1 r2 s3 s4
  have hframe1 := bgp_attr_intern_refs_frame x st
  have hfind1 : attr_find (bgp_attr_intern_refs x st).2.attrs
      (bgp_attr_intern_refs x st).1 = none := by
    rw [hframe1.1]
    exact attr_find_eq_none _ _ hx
  have hr1 : r1 = ((bgp_attr_intern_refs x st).2.next_id, (bgp_attr_intern_refs x st).1,
      { (bgp_attr_intern_refs x st).2 with
        attrs := (((bgp_attr_intern_refs x st).2.next_id,
          (bgp_attr_intern_refs x st).1, 1) :: (bgp_attr_intern_refs x st).2.attrs),
        next_id := (bgp_attr_intern_refs x st).2.next_id + 1 }) :=
    bgp_attr_intern_eq_of_find_none x st hfind1
  have hattrs1 : r1.2.2.attrs = ((r1.1, r1.2.1, 1) :: st.attrs) := by
    simp only [hr1]
    rw [hframe1.1]
  have hfix2 : (bgp_attr_intern_refs r1.2.1 r1.2.2).1 = r1.2.1 := by
    apply bgp_attr_intern_refs_fst
    intro t ht
    have hpos := bgp_attr_intern_refs_transit x st t (by
      simpa only [hr1] using ht)
    simpa only [hr1] using hpos
  have hframe2 := bgp_attr_intern_refs_frame r1.2.1 r1.2.2
  have hfind2 : attr_find (bgp_attr_intern_refs r1.2.1 r1.2.2).2.attrs
      (bgp_attr_intern_refs r1.2.1 r1.2.2).1 = some r1.1 := by
    rw [hfix2, hframe2.1, hattrs1]
    simp [attr_find, attrhash_cmp_refl]
  have hr2 : r2 = (r1.1, (bgp_attr_intern_refs r1.2.1 r1.2.2).1,
      { (bgp_attr_intern_refs r1.2.1 r1.2.2).2 with
        attrs := attr_bump (bgp_attr_intern_refs r1.2.1 r1.2.2).2.attrs r1.1 }) :=
    bgp_attr_intern_eq_of_find_some r1.2.1 r1.2.2 r1.1 hfind2
  have hr2attrs : r2.2.2.attrs = ((r1.1, r1.2.1, 2) :: st.attrs) := by
    simp only [hr2]
    rw [hframe2.1, hattrs1]
    simp [attr_bump]
  have hlookup2 : attr_lookup r2.2.2.attrs r1.1 = some (r1.2.1, 2) := by
    rw [hr2attrs]
    simp [attr_lookup]
  have hs3attrs : s3.attrs = ((r1.1, r1.2.1, 1) :: st.attrs) := by
    show (bgp_attr_unintern r1.1 r2.2.2).attrs = _
    simp only [bgp_attr_unintern, hlookup2]
    rw [(bgp_attr_unintern_sub_frame _ _).1]
    simp only [hr2attrs]
    norm_num
    simp [attr_set_refcnt]
  have hlookup3 : attr_lookup s3.attrs r1.1 = some (r1.2.1, 1) := by
    rw [hs3attrs]
    simp [attr_lookup]
  have hn : ∀ e ∈ st.attrs, e.1 < r1.1 := by
    intro e he
    have hlt := hWF e he
    simp only [hr1]
    rw [hframe1.2]
    exact hlt
  have hs4attrs : s4.attrs = st.attrs := by
    show (bgp_attr_unintern r1.1 s3).attrs = _
    simp only [bgp_attr_unintern, hlookup3]
    rw [(bgp_attr_unintern_sub_frame _ _).1]
    simp only [hs3attrs]
    norm_num
    intro a a1 b hmem
    exact Nat.ne_of_lt (hn (a, a1, b) hmem)
  refine ⟨by simp only [hr2], hlookup2, hlookup3, ?_, hs4attrs⟩
  rw [hs4attrs]
  exact attr_lookup_eq_none_of_lt _ _ hn

/-- Witness for `bgp_attr_intern_refcount`: the empty attribute set
interned twice into the empty pools yields identity 0 both times.  -/
theorem bgp_attr_intern_refcount_witness :
    (bgp_attr_intern (bgp_attr_intern {} empty_pools).2.1
        (bgp_attr_intern {} empty_pools).2.2).1 =
      (bgp_attr_intern {} empty_pools).1 :=
  (bgp_attr_intern_refcount {} empty_pools
    (by intro e he; simp [empty_pools] at he)
    (by intro e he; simp [empty_pools] at he)).1

/-! ### AS4 reconciliation (`bgp_attr_munge_as4_attrs`) -/

/-- `bgp_attr_munge_as4_attrs` (bgp_attr.c lines 1246-1342), acting on the
scratch attribute set and the AS-path pool.  AS-path values are opaque
canonical identities; `aspath_reconcile_as4` (in `bgp_aspath.c`, not
among the provided sources) is an uninterpreted parameter giving the
identity of the spliced path, and `aspath_unintern` / `aspath_intern` are
the spec-modelled pool operations `ref_unintern` / `ref_intern`.  The
intermediate `step` value carries the C locals (`ignore_as4_path`, the
possibly updated attribute); `none` stands for the aborted
`assert(attre)` in the both-aggregators branch, surfaced as `Error`.  -/
def bgp_attr_munge_as4_attrs (p : peer) (a : attr) (aspath_pool : Nat → Nat)
    (as4_path : Option Nat) (as4_aggregator : Nat) (as4_aggregator_addr : Nat)
    (aspath_reconcile_as4 : Nat → Option Nat → Nat) :
    bgp_attr_parse_ret × attr × (Nat → Nat) :=
  match a.aspath with
  | none => (.error, a, aspath_pool)
  | some asp =>
    if p.cap_as4_rcv then (.proceed, a, aspath_pool)
    else
      let step : Option (Bool × attr) :=
        if CHECK_FLAG a.flag (ATTR_FLAG_BIT BGP_ATTR_AS4_AGGREGATOR) then
          if CHECK_FLAG a.flag (ATTR_FLAG_BIT BGP_ATTR_AGGREGATOR) then
            match a.extra with
            | none => none
            | some e =>
              if e.aggregator_as ≠ BGP_AS_TRANS then
                some (true, a)
              else
                some (false, { a with
                  extra := some { e with
                    aggregator_as := as4_aggregator,
                    aggregator_addr := as4_aggregator_addr } })
          else
            let e := a.extra.getD {}
            some (false, { a with
              extra := some { e with aggregator_as := as4_aggregator },
              flag := SET_FLAG a.flag (ATTR_FLAG_BIT BGP_ATTR_AGGREGATOR) })
        else some (false, a)
      match step with
      | none => (.error, a, aspath_pool)
      | some (ignore_as4_path, a1) =>
        if !ignore_as4_path &&
            CHECK_FLAG a1.flag (ATTR_FLAG_BIT BGP_ATTR_AS4_PATH) then
          let newpath := aspath_reconcile_as4 asp as4_path
          let pool1 := ref_unintern aspath_pool asp
          (.proceed, { a1 with aspath := some newpath }, ref_intern pool1 newpath)
        else (.proceed, a1, aspath_pool)

/-- C4: for a peer without the 4-byte-AS capability whose message carried
AS-Path and both Aggregator and AS4-Aggregator: when the Aggregator's AS
differs from AS_TRANS, `bgp_attr_munge_as4_attrs` returns with the
attribute set and the AS-path pool wholly unchanged (both AS4 attributes
ignored); when it equals AS_TRANS, the AS4-Aggregator's AS and address
become the effective aggregator, and if AS4-Path was also received the
AS-path becomes the spliced path, the old path being released and the
merged path interned in its place (otherwise the AS-path and pool are
untouched).  -/
theorem bgp_attr_munge_as4_both_aggregators (p : peer) (a : attr)
    (pool : Nat → Nat) (as4_path : Option Nat) (as4agg as4agg_addr : Nat)
    (reconcile : Nat → Option Nat → Nat) (asp : Nat) (e : attr_extra)
    (hcap : p.cap_as4_rcv = false) (hasp : a.aspath = some asp)
    (hex : a.extra = some e)
    (hagg : CHECK_FLAG a.flag (ATTR_FLAG_BIT BGP_ATTR_AGGREGATOR) = true)
    (has4 : CHECK_FLAG a.flag (ATTR_FLAG_BIT BGP_ATTR_AS4_AGGREGATOR) = true) :
    let r := bgp_attr_munge_as4_attrs p a pool as4_path as4agg as4agg_addr reconcile
    (e.aggregator_as ≠ BGP_AS_TRANS → r = (.proceed, a, pool)) ∧
    (e.aggregator_as = BGP_AS_TRANS →
      r.1 = .proceed ∧
      r.2.1.extra = some { e with
        aggregator_as := as4agg, aggregator_addr := as4agg_addr } ∧
      (CHECK_FLAG a.flag (ATTR_FLAG_BIT BGP_ATTR_AS4_PATH) = true →
        r.2.1.aspath = some (reconcile asp as4_path) ∧
        r.2.2 = ref_intern (ref_unintern pool asp) (reconcile asp as4_path)) ∧
      (CHECK_FLAG a.flag (ATTR_FLAG_BIT BGP_ATTR_AS4_PATH) = false →
        r.2.1.aspath = some asp ∧ r.2.2 = pool)) := by
  constructor
  · intro hne
    simp [bgp_attr_munge_as4_attrs, hasp, hcap, hagg, has4, hex, hne]
  · intro heq
    by_cases hp4 : CHECK_FLAG a.flag (ATTR_FLAG_BIT BGP_ATTR_AS4_PATH) = true
    · refine ⟨?_, ?_, ?_, ?_⟩ <;>
        simp [bgp_attr_munge_as4_attrs, hasp, hcap, hagg, has4, hex, heq, hp4]
    · rw [Bool.not_eq_true] at hp4
      refine ⟨?_, ?_, ?_, ?_⟩ <;>
        simp [bgp_attr_munge_as4_attrs, hasp, hcap, hagg, has4, hex, heq, hp4]

/-- Concrete inputs for the C4 witness: a 2-byte-AS iBGP peer, an
attribute set carrying AS-Path (identity 1), AS4-Path, Aggregator with
AS_TRANS and AS4-Aggregator.  -/
def c4_attr : attr :=
  { flag := ATTR_FLAG_BIT BGP_ATTR_AS_PATH ||| ATTR_FLAG_BIT BGP_ATTR_AGGREGATOR |||
      ATTR_FLAG_BIT BGP_ATTR_AS4_AGGREGATOR ||| ATTR_FLAG_BIT BGP_ATTR_AS4_PATH,
    aspath := some 1,
    extra := some { aggregator_as := BGP_AS_TRANS, aggregator_addr := 7 } }

/-- Witness for `bgp_attr_munge_as4_both_aggregators`: with the aggregator
at AS_TRANS and an AS4-Path present, the spliced path (here the
uninterpreted reconcile gives identity 9) replaces the AS-path.  -/
theorem bgp_attr_munge_as4_both_aggregators_witness :
    (bgp_attr_munge_as4_attrs ⟨.ibgp, false, false, false, false, false, false,
        false, 0, 0, false, 0, 0⟩ c4_attr (fun _ => 1) (some 2) 70000 8
        (fun _ _ => 9)).2.1.aspath = some 9 := by
  have h := (bgp_attr_munge_as4_both_aggregators
    ⟨.ibgp, false, false, false, false, false, false, false, 0, 0, false, 0, 0⟩
    c4_attr (fun _ => 1) (some 2) 70000 8 (fun _ _ => 9) 1
    { aggregator_as := BGP_AS_TRANS, aggregator_addr := 7 }
    rfl (by decide) (by decide) (by decide) (by decide)).2 (by decide)
  exact (h.2.2.1 (by decide)).1

/-! ### Per-attribute decoders: Local-Preference, Communities, unknown -/

/-- Observable outcome of one decoder call: parse result, updated scratch
attribute set, updated stream, NOTIFY sent (if any).  -/
structure decode_result where
  ret : bgp_attr_parse_ret
  attr : attr
  s : stream
  notified : Option notify_msg
deriving DecidableEq, Repr

/-- A decoder's tail call into `bgp_attr_malformed`, repackaged as a
decoder result (the policy updates the presence bitmap and the cursor).  -/
def malformed_to_decode (args : bgp_attr_parser_args) (subcode : notify_subcode)
    (length : Nat) (a : attr) (s : stream) : decode_result :=
  let m := bgp_attr_malformed args subcode length a.flag s.getp
  ⟨m.ret, { a with flag := m.attr_flag }, { s with getp := m.getp }, m.notified⟩

/-- `bgp_attr_local_pref` (bgp_attr.c lines 1148-1173): length must be 4;
an eBGP peer's Local-Preference is skipped (bytes consumed, nothing
stored); otherwise the 4-byte value is stored and the presence bit set.  -/
def bgp_attr_local_pref (args : bgp_attr_parser_args) (a : attr) (s : stream) :
    decode_result :=
  if args.length ≠ 4 then
    malformed_to_decode args .attr_leng_err args.total a s
  else if args.peer.sort = .ebgp then
    ⟨.proceed, a, stream_forward_getp s args.length, none⟩
  else
    let v := stream_getl s
    ⟨.proceed,
      { a with
        local_pref := v.1,
        flag := SET_FLAG a.flag (ATTR_FLAG_BIT BGP_ATTR_LOCAL_PREF) },
      v.2, none⟩

/-- C9: a Local-Preference attribute of declared length 4 consumes exactly
4 value bytes and returns Proceed with no NOTIFY; from an eBGP peer the
scratch attribute set is returned unchanged (the `local_pref` field is
not written and the presence bit not set), while from a non-eBGP peer the
4-byte big-endian value is stored and the presence bit set.  -/
theorem bgp_attr_local_pref_ebgp_skip (args : bgp_attr_parser_args)
    (a : attr) (s : stream) (hlen : args.length = 4) :
    let r := bgp_attr_local_pref args a s
    r.s.getp = s.getp + 4 ∧ r.s.data = s.data ∧ r.ret = .proceed ∧
    r.notified = none ∧
    (args.peer.sort = .ebgp → r.attr = a) ∧
    (args.peer.sort ≠ .ebgp →
      r.attr = { a with
        local_pref := (stream_getl s).1,
        flag := SET_FLAG a.flag (ATTR_FLAG_BIT BGP_ATTR_LOCAL_PREF) }) := by
  by_cases hs : args.peer.sort = .ebgp <;>
    simp [bgp_attr_local_pref, hlen, hs, stream_forward_getp, stream_getl]

/-- Witness for `bgp_attr_local_pref_ebgp_skip`: an eBGP Local-Pref of
length 4 leaves the empty scratch attribute set untouched.  -/
theorem bgp_attr_local_pref_ebgp_skip_witness :
    (bgp_attr_local_pref
        ⟨⟨.ebgp, false, false, false, false, false, false, false, 0, 0, false, 0, 0⟩,
          4, BGP_ATTR_LOCAL_PREF, 0x40, 0, 7⟩ {} ⟨[64, 2, 5, 4, 0, 0, 0, 100], 3⟩).attr =
      {} :=
  ((bgp_attr_local_pref_ebgp_skip
    ⟨⟨.ebgp, false, false, false, false, false, false, false, 0, 0, false, 0, 0⟩,
      4, BGP_ATTR_LOCAL_PREF, 0x40, 0, 7⟩ {} ⟨[64, 2, 5, 4, 0, 0, 0, 100], 3⟩
    rfl).2.2.2.2.1) rfl

/-- `bgp_attr_community` (bgp_attr.c lines 1345-1367).  `community_parse`
(in `bgp_community.c`, not among the provided sources) is an
uninterpreted parameter mapping the value bytes to the parsed community
reference, `none` for a malformed one.  -/
def bgp_attr_community (args : bgp_attr_parser_args) (a : attr) (s : stream)
    (community_parse : List Nat → Nat → Option Nat) : decode_result :=
  if args.length = 0 then
    ⟨.proceed, { a with community := none }, s, none⟩
  else
    let c := community_parse ((s.data.drop s.getp).take args.length) args.length
    let s1 := stream_forward_getp s args.length
    match c with
    | none => malformed_to_decode args .opt_attr_err args.total a s1
    | some cid =>
      ⟨.proceed,
        { a with
          community := some cid,
          flag := SET_FLAG a.flag (ATTR_FLAG_BIT BGP_ATTR_COMMUNITIES) },
        s1, none⟩

/-- C10: a Communities attribute of declared length 0 returns Proceed with
the community reference null, the presence bitmap and the stream
untouched and no NOTIFY; on a scratch attribute set whose community was
already null the state is exactly the input state, indistinguishable from
parsing a message with no Communities attribute at all.  -/
theorem bgp_attr_community_zero_length (args : bgp_attr_parser_args)
    (a : attr) (s : stream) (cp : List Nat → Nat → Option Nat)
    (hlen : args.length = 0) :
    let r := bgp_attr_community args a s cp
    r.ret = .proceed ∧ r.attr.community = none ∧ r.attr.flag = a.flag ∧
    r.s = s ∧ r.notified = none ∧
    (a.community = none → r.attr = a) := by
  intro r
  have hr : r = ⟨.proceed, { a with community := none }, s, none⟩ := by
    show bgp_attr_community args a s cp = _
    simp [bgp_attr_community, hlen]
  simp [hr]
  intro hc
  obtain ⟨f, o, nh, asp, com, med, lp, ex⟩ := a
  simp only [] at hc
  simp [hc]

/-- Witness for `bgp_attr_community_zero_length`: a zero-length
Communities attribute on the empty scratch set leaves it untouched.  -/
theorem bgp_attr_community_zero_length_witness :
    (bgp_attr_community
        ⟨⟨.ebgp, false, false, false, false, false, false, false, 0, 0, false, 0, 0⟩,
          0, BGP_ATTR_COMMUNITIES, 0xC0, 0, 3⟩ {} ⟨[0xC0, 8, 0], 3⟩
        (fun _ _ => none)).attr = {} :=
  ((bgp_attr_community_zero_length
    ⟨⟨.ebgp, false, false, false, false, false, false, false, 0, 0, false, 0, 0⟩,
      0, BGP_ATTR_COMMUNITIES, 0xC0, 0, 3⟩ {} ⟨[0xC0, 8, 0], 3⟩
    (fun _ _ => none) rfl).2.2.2.2.2) rfl

/-- `bgp_attr_unknown` (bgp_attr.c lines 1725-1784): forward the read
pointer past the value bytes; a non-Optional unknown type goes through
the malformed policy with subcode UnrecognizedWellKnown; Optional
non-Transitive is silently dropped; Optional Transitive gets the Partial
bit set in the attribute's original flags octet of the input buffer and
the attribute's raw `total` bytes (flags, type, length, value, read after
the Partial-bit update) appended to the transit accumulator, allocating
the accumulator on first use.  -/
def bgp_attr_unknown (args : bgp_attr_parser_args) (a : attr) (s : stream) :
    decode_result :=
  let s1 := stream_forward_getp s args.length
  if CHECK_FLAG args.flags BGP_ATTR_FLAG_OPTIONAL = false then
    malformed_to_decode args .unrec_attr args.total a s1
  else if CHECK_FLAG args.flags BGP_ATTR_FLAG_TRANS = false then
    ⟨.proceed, a, s1, none⟩
  else
    let data1 := s1.data.set args.startp
      (SET_FLAG (s1.data.getD args.startp 0) BGP_ATTR_FLAG_PARTIAL)
    let e := a.extra.getD {}
    let t0 := e.transit.getD { length := 0, val := [] }
    let raw := (data1.drop args.startp).take args.total
    let t1 : transit := { length := t0.length + args.total, val := t0.val ++ raw }
    ⟨.proceed, { a with extra := some { e with transit := some t1 } },
      { s1 with data := data1 }, none⟩

/-- The post-loop transit interning of `bgp_attr_parse` (bgp_attr.c lines
2065-2068): after the attribute loop completes, an accumulated
unknown-transit blob is interned into the transit pool, the attribute
henceforth pointing at the canonical blob.  -/
def bgp_attr_parse_intern_transit (a : attr) (pool : List (transit × Nat)) :
    attr × List (transit × Nat) :=
  match a.extra with
  | none => (a, pool)
  | some e =>
    match e.transit with
    | none => (a, pool)
    | some t =>
      let r := transit_intern t pool
      ({ a with extra := some { e with transit := some r.1 } }, r.2)

theorem transit_intern_mem (t : transit) (tbl : List (transit × Nat)) :
    ∃ en ∈ (transit_intern t tbl).2, transit_hash_cmp en.1 t = true ∧ 1 ≤ en.2 := by
  induction tbl with
  | nil =>
    exact ⟨(t, 1), by simp [transit_intern], transit_hash_cmp_refl t, le_refl 1⟩
  | cons e rest ih =>
    by_cases h : transit_hash_cmp e.1 t
    · exact ⟨(e.1, e.2 + 1), by simp [transit_intern, h], h, by omega⟩
    · obtain ⟨u, hu, hcmp, hle⟩ := ih
      refine ⟨u, ?_, hcmp, hle⟩
      simp only [transit_intern, h, Bool.false_eq_true, if_false]
      exact List.mem_cons_of_mem e hu

/-- The transit accumulator's value after `bgp_attr_unknown` has appended
the raw attribute: the prior accumulator (empty when first allocated)
followed by the `total`-byte slice at `startp` of the buffer as updated
by the Partial-bit write — the attribute's raw (flags, type, length,
value) encoding.  -/
def unknown_transit_blob (args : bgp_attr_parser_args) (a : attr) (s : stream) :
    transit :=
  ⟨((a.extra.getD {}).transit.getD ⟨0, []⟩).length + args.total,
    ((a.extra.getD {}).transit.getD ⟨0, []⟩).val ++
      (((s.data.set args.startp (SET_FLAG (s.data.getD args.startp 0)
          BGP_ATTR_FLAG_PARTIAL)).drop args.startp).take args.total)⟩

/-- The scratch attribute set as left by `bgp_attr_unknown` in the
Optional+Transitive case: unchanged except that the transit accumulator
now ends with the raw attribute bytes.  -/
def unknown_ot_attr (args : bgp_attr_parser_args) (a : attr) (s : stream) : attr :=
  { a with
    extra := some { a.extra.getD {} with
      transit := some (unknown_transit_blob args a s) } }

/-- The input buffer as left by `bgp_attr_unknown` in the
Optional+Transitive case: the Partial bit set in the attribute's original
flags octet, the read cursor past the value bytes.  -/
def unknown_ot_stream (args : bgp_attr_parser_args) (s : stream) : stream :=
  ⟨s.data.set args.startp (SET_FLAG (s.data.getD args.startp 0)
      BGP_ATTR_FLAG_PARTIAL),
    s.getp + args.length⟩

/-- C8: for an attribute type with no dedicated decoder,
`bgp_attr_unknown` always consumes exactly the declared length of value
bytes (given the parse loop's framing `startp + total = getp + length`);
with the Optional flag clear it applies the malformed-attribute policy
with subcode UnrecognizedWellKnown; with Optional set and Transitive
clear it returns Proceed storing nothing; with Optional and Transitive
both set it sets the Partial bit in the attribute's original flags octet
in the input buffer and appends the attribute's raw `total`-byte (flags,
type, length, value) encoding to the transit accumulator, which the tail
of `bgp_attr_parse` interns into the transit pool once the attribute loop
completes.  -/
theorem bgp_attr_unknown_cases (args : bgp_attr_parser_args) (a : attr)
    (s : stream) (htot : args.startp + args.total = s.getp + args.length) :
    (bgp_attr_unknown args a s).s.getp = s.getp + args.length ∧
    (CHECK_FLAG args.flags BGP_ATTR_FLAG_OPTIONAL = false →
      bgp_attr_unknown args a s = malformed_to_decode args .unrec_attr
        args.total a (stream_forward_getp s args.length)) ∧
    (CHECK_FLAG args.flags BGP_ATTR_FLAG_OPTIONAL = true →
      CHECK_FLAG args.flags BGP_ATTR_FLAG_TRANS = false →
      bgp_attr_unknown args a s =
        ⟨.proceed, a, stream_forward_getp s args.length, none⟩) ∧
    (CHECK_FLAG args.flags BGP_ATTR_FLAG_OPTIONAL = true →
      CHECK_FLAG args.flags BGP_ATTR_FLAG_TRANS = true →
      bgp_attr_unknown args a s =
        ⟨.proceed, unknown_ot_attr args a s, unknown_ot_stream args s, none⟩ ∧
      (∀ pool, ∃ en ∈ (bgp_attr_parse_intern_transit
            (bgp_attr_unknown args a s).attr pool).2,
        transit_hash_cmp en.1 (unknown_transit_blob args a s) = true ∧
          1 ≤ en.2)) := by
  have hOT : ∀ (ho : CHECK_FLAG args.flags BGP_ATTR_FLAG_OPTIONAL = true)
      (ht : CHECK_FLAG args.flags BGP_ATTR_FLAG_TRANS = true),
      bgp_attr_unknown args a s =
        ⟨.proceed, unknown_ot_attr args a s, unknown_ot_stream args s, none⟩ := by
    intro ho ht
    simp only [bgp_attr_unknown, ho, ht, Bool.true_eq_false, if_false,
      stream_forward_getp, unknown_ot_attr, unknown_ot_stream,
      unknown_transit_blob]
  refine ⟨?_, ?_, ?_, ?_⟩
  · by_cases ho : CHECK_FLAG args.flags BGP_ATTR_FLAG_OPTIONAL = false
    · by_cases hp : args.peer.sort = .ebgp
      · simp [bgp_attr_unknown, ho, malformed_to_decode, bgp_attr_malformed, hp,
          stream_forward_getp]
        split_ifs <;> simp <;> omega
      · simp [bgp_attr_unknown, ho, malformed_to_decode, bgp_attr_malformed, hp,
          stream_forward_getp]
    · rw [Bool.not_eq_false] at ho
      by_cases ht : CHECK_FLAG args.flags BGP_ATTR_FLAG_TRANS = false
      · simp [bgp_attr_unknown, ho, ht, stream_forward_getp]
      · rw [Bool.not_eq_false] at ht
        rw [hOT ho ht]
        simp [unknown_ot_stream]
  · intro ho
    simp [bgp_attr_unknown, ho]
  · intro ho ht
    simp [bgp_attr_unknown, ho, ht]
  · intro ho ht
    refine ⟨hOT ho ht, ?_⟩
    intro pool
    rw [hOT ho ht]
    simpa [bgp_attr_parse_intern_transit, unknown_ot_attr]
      using transit_intern_mem (unknown_transit_blob args a s) pool

/-- Witness for `bgp_attr_unknown_cases`: an optional+transitive unknown
attribute (type 99, flags 0xC0, one value byte) parsed from the buffer
`[C0 63 01 AA]` with the cursor at its value byte ends with the cursor
one past it and proceeds.  -/
theorem bgp_attr_unknown_cases_witness :
    (bgp_attr_unknown
        ⟨⟨.ebgp, false, false, false, false, false, false, false, 0, 0, false, 0, 0⟩,
          1, 99, 0xC0, 0, 4⟩ {} ⟨[0xC0, 99, 1, 0xAA], 3⟩).s.getp = 4 ∧
    (bgp_attr_unknown
        ⟨⟨.ebgp, false, false, false, false, false, false, false, 0, 0, false, 0, 0⟩,
          1, 99, 0xC0, 0, 4⟩ {} ⟨[0xC0, 99, 1, 0xAA], 3⟩).ret = .proceed := by
  have h := bgp_attr_unknown_cases
    ⟨⟨.ebgp, false, false, false, false, false, false, false, 0, 0, false, 0, 0⟩,
      1, 99, 0xC0, 0, 4⟩ {} ⟨[0xC0, 99, 1, 0xAA], 3⟩ rfl
  refine ⟨h.1, ?_⟩
  rw [(h.2.2.2 (by decide) (by decide)).1]

/-! ### The attribute encoder (`bgp_packet_attribute`)

`bgp_aspath.c` and the AFI/SAFI and extended-community headers are not
among the provided sources; the AS-path helpers below are modelled from
the spec (§4.5: the rewritten path "is additionally encoded as AS4-Path
(with confederation segments stripped) and the primary AS-Path is
encoded with such ASNs downgraded to the AS_TRANS placeholder").  -/

/-- `struct assegment`: one AS-path segment, its type and AS numbers.  -/
inductive as_segment_type
  | as_set
  | as_sequence
  | as_confed_sequence
  | as_confed_set
deriving DecidableEq, Repr

structure assegment where
  type : as_segment_type
  as : List Nat
deriving DecidableEq, Repr

/-- Is the segment a confederation segment?  -/
def segment_confed (t : as_segment_type) : Bool :=
  t = .as_confed_sequence || t = .as_confed_set

/-- Modelled from the spec: `aspath_has_as4` — does the path carry any AS
number above 65535?  -/
def aspath_has_as4 (p : List assegment) : Bool :=
  p.any fun seg => seg.as.any fun n => 65535 < n

/-- Modelled from the spec: the value `aspath_put` writes for one AS
number — the full number in 4-byte encoding, and in 2-byte encoding the
number itself when representable, AS_TRANS otherwise.  -/
def aspath_put_as (use32bit : Bool) (n : Nat) : Nat :=
  if use32bit then n else if 65535 < n then BGP_AS_TRANS else n

/-- Modelled from the spec: `aspath_put` at segment level.  -/
def aspath_put (p : List assegment) (use32bit : Bool) : List assegment :=
  p.map fun seg => { seg with as := seg.as.map (aspath_put_as use32bit) }

/-- Modelled from the spec: confederation segments are excluded from the
emitted AS4-Path ("ensure that no AS_CONFED_SEQUENCE and AS_CONFED_SET
path segment types are in it, i.e. exclude them if they are there").  -/
def aspath_delete_confed_seq (p : List assegment) : List assegment :=
  p.filter fun seg => !segment_confed seg.type

/-- Modelled from the spec: `aspath_add_seq` prepends an AS number to the
path (into the leading AS_SEQUENCE segment, creating one if needed).  -/
def aspath_add_seq (p : List assegment) (asno : Nat) : List assegment :=
  match p with
  | [] => [⟨.as_sequence, [asno]⟩]
  | seg :: rest =>
    if seg.type = .as_sequence then { seg with as := asno :: seg.as } :: rest
    else ⟨.as_sequence, [asno]⟩ :: seg :: rest

/-- Modelled from the spec: `aspath_add_confed_seq` prepends an AS number
into the leading AS_CONFED_SEQUENCE segment.  -/
def aspath_add_confed_seq (p : List assegment) (asno : Nat) : List assegment :=
  match p with
  | [] => [⟨.as_confed_sequence, [asno]⟩]
  | seg :: rest =>
    if seg.type = .as_confed_sequence then { seg with as := asno :: seg.as } :: rest
    else ⟨.as_confed_sequence, [asno]⟩ :: seg :: rest

/-- AFI/SAFI codes (standard IANA values; `zebra.h` is not among the
provided sources).  -/
def AFI_IP : Nat := 1

def AFI_IP6 : Nat := 2

def SAFI_UNICAST : Nat := 1

def SAFI_MULTICAST : Nat := 2

def SAFI_MPLS_VPN : Nat := 4

def SAFI_ENCAP : Nat := 7

/-- The extended-community non-transitive flag bit in the first octet
(`bgp_ecommunity.h` is not among the provided sources; spec §4.5:
"filtered to exclude entries carrying the non-transitive bit").  -/
def ECOMMUNITY_FLAG_NON_TRANSITIVE : Nat := 0x40

/-- The slice of `struct bgp` that `bgp_packet_attribute` reads.  -/
structure bgp_conf where
  config_confederation : Bool := false
  confed_id : Nat := 0
  config_cluster_id : Bool := false
  cluster_id : Nat := 0
  router_id : Nat := 0
deriving DecidableEq, Repr

/-- Dereferenced contents of the canonical references the encoder reads:
the AS-path's segments, the community value words, large-community and
extended-community entries (as per-entry byte lists), the cluster list
and the transit blob bytes.  -/
structure enc_env where
  aspath_segs : List assegment := []
  community_val : List Nat := []
  lcommunity_val : List (List Nat) := []
  ecommunity_val : List (List Nat) := []
  cluster_list : List Nat := []
  transit_val : List Nat := []
deriving DecidableEq, Repr

/-- One attribute block written by `bgp_packet_attribute`, identified by
its type code and decoded payload (1- vs 2-byte length encoding and the
length patch-back abstracted away).  -/
inductive emitted_attr
  | MP_REACH (afi safi : Nat)
  | ORIGIN (v : Nat)
  | AS_PATH (segs : List assegment)
  | NEXT_HOP (addr : Nat)
  | MULTI_EXIT_DISC (v : Nat)
  | LOCAL_PREF (v : Nat)
  | ATOMIC_AGGREGATE
  | AGGREGATOR (len asfield addr : Nat)
  | COMMUNITIES (vals : List Nat)
  | LARGE_COMMUNITIES (vals : List (List Nat))
  | ORIGINATOR_ID (v : Nat)
  | CLUSTER_LIST (first : Nat) (rest : List Nat)
  | EXT_COMMUNITIES (vals : List (List Nat))
  | AS4_PATH (segs : List assegment)
  | AS4_AGGREGATOR (asn addr : Nat)
  | TUNNEL_ENCAP
  | TRANSIT (bytes : List Nat)
deriving DecidableEq, Repr

/-- The per-destination AS-path rewrite at the top of
`bgp_packet_attribute` (bgp_attr.c lines 2294-2320): confederation
handling, local-AS / replace-AS prepending for eBGP, confed-sequence
prepending for confederation members, the unmodified path otherwise.  -/
def bgp_packet_attribute_aspath (bgp : bgp_conf) (p : peer) (env : enc_env) :
    List assegment :=
  if p.sort = .ebgp ∧
      (p.af_as_path_unchanged = false ∨ env.aspath_segs = []) ∧
      p.af_rserver_client = false then
    if bgp.config_confederation then
      aspath_add_seq (aspath_delete_confed_seq env.aspath_segs) bgp.confed_id
    else if p.change_local_as ≠ 0 then
      let base := if p.flag_local_as_replace_as = false then
        aspath_add_seq env.aspath_segs p.local_as else env.aspath_segs
      aspath_add_seq base p.change_local_as
    else aspath_add_seq env.aspath_segs p.local_as
  else if p.sort = .confed then
    aspath_add_confed_seq env.aspath_segs p.local_as
  else env.aspath_segs

/-- `bgp_packet_attribute` (bgp_attr.c lines 2263-2594) as the sequence
of attribute blocks it writes, in emission order.  `p_present` stands for
the prefix pointer argument `p` being non-NULL and `from_peer` for the
`from` peer.  `send_as4_path` and `send_as4_aggregator` restate the C
flags of the same names as the conditions under which the code sets them.  -/
def bgp_packet_attribute (bgp : bgp_conf) (p : peer) (a : attr) (env : enc_env)
    (p_present : Bool) (afi safi : Nat) (from_peer : Option peer) :
    List emitted_attr :=
  let use32bit := p.cap_as4_rcv
  let aspath := bgp_packet_attribute_aspath bgp p env
  let send_as4_path := use32bit = false ∧ aspath_has_as4 aspath = true
  let send_as4_aggregator :=
    CHECK_FLAG a.flag (ATTR_FLAG_BIT BGP_ATTR_AGGREGATOR) = true ∧
      use32bit = false ∧ 65535 < (a.extra.getD {}).aggregator_as
  (if p_present = true ∧ ¬(afi = AFI_IP ∧ safi = SAFI_UNICAST) then
    [emitted_attr.MP_REACH afi safi] else []) ++
  [emitted_attr.ORIGIN a.origin] ++
  [emitted_attr.AS_PATH (aspath_put aspath use32bit)] ++
  (if CHECK_FLAG a.flag (ATTR_FLAG_BIT BGP_ATTR_NEXT_HOP) = true ∧ afi = AFI_IP ∧
      safi = SAFI_UNICAST then
    [emitted_attr.NEXT_HOP (if safi = SAFI_MPLS_VPN then
      (if a.nexthop = 0 then p.nexthop_v4 else a.nexthop) else a.nexthop)]
   else []) ++
  (if CHECK_FLAG a.flag (ATTR_FLAG_BIT BGP_ATTR_MULTI_EXIT_DISC) = true then
    [emitted_attr.MULTI_EXIT_DISC a.med] else []) ++
  (if p.sort = .ibgp ∨ p.sort = .confed then
    [emitted_attr.LOCAL_PREF a.local_pref] else []) ++
  (if CHECK_FLAG a.flag (ATTR_FLAG_BIT BGP_ATTR_ATOMIC_AGGREGATE) = true then
    [emitted_attr.ATOMIC_AGGREGATE] else []) ++
  (if CHECK_FLAG a.flag (ATTR_FLAG_BIT BGP_ATTR_AGGREGATOR) = true then
    (if use32bit then
      [emitted_attr.AGGREGATOR 8 (a.extra.getD {}).aggregator_as
        (a.extra.getD {}).aggregator_addr]
     else if 65535 < (a.extra.getD {}).aggregator_as then
      [emitted_attr.AGGREGATOR 6 BGP_AS_TRANS (a.extra.getD {}).aggregator_addr]
     else
      [emitted_attr.AGGREGATOR 6 (a.extra.getD {}).aggregator_as
        (a.extra.getD {}).aggregator_addr])
   else []) ++
  (if p.af_send_community = true ∧
      CHECK_FLAG a.flag (ATTR_FLAG_BIT BGP_ATTR_COMMUNITIES) = true then
    [emitted_attr.COMMUNITIES env.community_val] else []) ++
  (if a.extra.isSome = true ∧ p.af_send_lcommunity = true ∧
      CHECK_FLAG a.flag (ATTR_FLAG_BIT BGP_ATTR_LARGE_COMMUNITIES) = true then
    [emitted_attr.LARGE_COMMUNITIES env.lcommunity_val] else []) ++
  (match from_peer with
   | some f =>
     if p.sort = .ibgp ∧ f.sort = .ibgp then
       [emitted_attr.ORIGINATOR_ID
         (if CHECK_FLAG a.flag (ATTR_FLAG_BIT BGP_ATTR_ORIGINATOR_ID) = true then
           (a.extra.getD {}).originator_id else f.remote_id),
        emitted_attr.CLUSTER_LIST
          (if bgp.config_cluster_id then bgp.cluster_id else bgp.router_id)
          (if (a.extra.getD {}).cluster.isSome then env.cluster_list else [])]
     else []
   | none => []) ++
  (if p.af_send_ecommunity = true ∧
      CHECK_FLAG a.flag (ATTR_FLAG_BIT BGP_ATTR_EXT_COMMUNITIES) = true then
    (if p.sort = .ibgp ∨ p.sort = .confed then
      [emitted_attr.EXT_COMMUNITIES env.ecommunity_val]
     else
      let tr := env.ecommunity_val.filter
        (fun ent => CHECK_FLAG (ent.headD 0) ECOMMUNITY_FLAG_NON_TRANSITIVE = false)
      if tr ≠ [] then [emitted_attr.EXT_COMMUNITIES tr] else [])
   else []) ++
  (if send_as4_path then
    [emitted_attr.AS4_PATH (aspath_put (aspath_delete_confed_seq aspath) true)]
   else []) ++
  (if send_as4_aggregator then
    [emitted_attr.AS4_AGGREGATOR (a.extra.getD {}).aggregator_as
      (a.extra.getD {}).aggregator_addr]
   else []) ++
  (if (afi = AFI_IP ∨ afi = AFI_IP6) ∧ (safi = SAFI_ENCAP ∨ safi = SAFI_MPLS_VPN) then
    [emitted_attr.TUNNEL_ENCAP] else []) ++
  (if a.extra.isSome = true ∧ ((a.extra.getD {}).transit.isSome = true) then
    [emitted_attr.TRANSIT env.transit_val] else [])

/-- The 2-byte downgrade of one AS number (spec: "ASNs downgraded to the
AS_TRANS placeholder").  -/
def as_trans_downgrade (n : Nat) : Nat :=
  if 65535 < n then BGP_AS_TRANS else n

/-- C5: when the destination peer did not negotiate the 4-byte-AS
capability and the per-destination rewritten AS-path contains an AS
number above 65535, `bgp_packet_attribute` additionally emits an AS4-Path
carrying the path with confederation segments stripped and full 4-byte
numbers kept, while the primary AS-Path attribute encodes every AS number
above 65535 as the AS_TRANS placeholder; and when the attribute set
carries an Aggregator whose AS exceeds 65535, the emitted Aggregator is
the 6-byte form with AS_TRANS in its 2-byte AS field, and an
AS4-Aggregator with the full 4-byte AS and address is emitted as well.  -/
theorem bgp_packet_attribute_as4_downgrade (bgp : bgp_conf) (p : peer)
    (a : attr) (env : enc_env) (pp : Bool) (afi safi : Nat)
    (from_peer : Option peer) (hcap : p.cap_as4_rcv = false) :
    (aspath_has_as4 (bgp_packet_attribute_aspath bgp p env) = true →
      emitted_attr.AS4_PATH (aspath_put
          (aspath_delete_confed_seq (bgp_packet_attribute_aspath bgp p env)) true) ∈
        bgp_packet_attribute bgp p a env pp afi safi from_peer ∧
      (∀ seg ∈ aspath_put
          (aspath_delete_confed_seq (bgp_packet_attribute_aspath bgp p env)) true,
        segment_confed seg.type = false) ∧
      aspath_put (aspath_delete_confed_seq (bgp_packet_attribute_aspath bgp p env))
          true =
        aspath_delete_confed_seq (bgp_packet_attribute_aspath bgp p env) ∧
      emitted_attr.AS_PATH (aspath_put (bgp_packet_attribute_aspath bgp p env) false) ∈
        bgp_packet_attribute bgp p a env pp afi safi from_peer ∧
      aspath_put (bgp_packet_attribute_aspath bgp p env) false =
        (bgp_packet_attribute_aspath bgp p env).map
          (fun seg => { seg with as := seg.as.map as_trans_downgrade })) ∧
    (CHECK_FLAG a.flag (ATTR_FLAG_BIT BGP_ATTR_AGGREGATOR) = true →
      65535 < (a.extra.getD {}).aggregator_as →
      emitted_attr.AGGREGATOR 6 BGP_AS_TRANS (a.extra.getD {}).aggregator_addr ∈
        bgp_packet_attribute bgp p a env pp afi safi from_peer ∧
      emitted_attr.AS4_AGGREGATOR (a.extra.getD {}).aggregator_as
          (a.extra.getD {}).aggregator_addr ∈
        bgp_packet_attribute bgp p a env pp afi safi from_peer) := by
  constructor
  · intro h4
    refine ⟨?_, ?_, ?_, ?_, ?_⟩
    · simp [bgp_packet_attribute, hcap, h4]
    · intro seg hseg
      simp only [aspath_put, List.mem_map] at hseg
      obtain ⟨seg0, hseg0, hmap⟩ := hseg
      simp only [aspath_delete_confed_seq, List.mem_filter] at hseg0
      rw [← hmap]
      simpa using hseg0.2
    · have hmap : ∀ l : List assegment,
          l.map (fun seg => { seg with as := seg.as.map (aspath_put_as true) }) = l := by
        intro l
        induction l with
        | nil => rfl
        | cons seg rest ih =>
          obtain ⟨t, l⟩ := seg
          have hl : List.map (aspath_put_as true) l = l := by
            induction l with
            | nil => rfl
            | cons n rest2 ih2 => simp [aspath_put_as, ih2]
          simp [ih, hl]
      simp only [aspath_put]
      exact hmap _
    · simp [bgp_packet_attribute, hcap, h4]
    · simp [aspath_put, aspath_put_as, as_trans_downgrade]
  · intro hf hgt
    constructor
    · simp [bgp_packet_attribute, hcap, hf, hgt, Nat.not_lt.mpr]
    · simp [bgp_packet_attribute, hcap, hf, hgt]

/-- Concrete encoder input for the C5 witness: a plain eBGP 2-byte-AS
destination peer with local AS 100, an AS-path containing AS 70000, and
an aggregator at AS 70000.  -/
def c5_peer : peer :=
  { sort := .ebgp, local_as := 100 }

def c5_env : enc_env :=
  { aspath_segs := [⟨.as_sequence, [70000, 200]⟩] }

def c5_attr : attr :=
  { flag := ATTR_FLAG_BIT BGP_ATTR_AGGREGATOR,
    extra := some { aggregator_as := 70000, aggregator_addr := 9 } }

/-- Witness for `bgp_packet_attribute_as4_downgrade`: the concrete
encoding carries both the downgraded Aggregator and the AS4-Aggregator,
and the AS4-Path block for the rewritten path `[100, 70000, 200]`.  -/
theorem bgp_packet_attribute_as4_downgrade_witness :
    emitted_attr.AGGREGATOR 6 BGP_AS_TRANS 9 ∈
      bgp_packet_attribute {} c5_peer c5_attr c5_env false AFI_IP SAFI_UNICAST none ∧
    emitted_attr.AS4_AGGREGATOR 70000 9 ∈
      bgp_packet_attribute {} c5_peer c5_attr c5_env false AFI_IP SAFI_UNICAST none ∧
    emitted_attr.AS4_PATH (aspath_put
        (aspath_delete_confed_seq (bgp_packet_attribute_aspath {} c5_peer c5_env))
        true) ∈
      bgp_packet_attribute {} c5_peer c5_attr c5_env false AFI_IP SAFI_UNICAST none := by
  have h := bgp_packet_attribute_as4_downgrade {} c5_peer c5_attr c5_env false
    AFI_IP SAFI_UNICAST none rfl
  have h2 := h.2 (by decide) (by decide)
  exact ⟨h2.1, h2.2, (h.1 (by decide)).1⟩

end BgpAttr
